import Mathlib

/-!
# Venus execution core: runtime adapter, buffered block store, ticket machine, consensus driver

A shallow embedding of

* `internal/pkg/vm/internal/vmcontext/runtime_adapter.go`
* `pkg/util/blockstoreutil/buf_bstore.go`
* `pkg/consensus/ticket.go`
* `pkg/consensus/expected.go`

Go methods become functions that take the mutable state they touch and return the
new state next to their result.  A Go `panic` becomes an error value that is
returned together with the state at the point of the panic.  Interfaces whose
implementations are not among the sources are either small concrete models
(documented where they are declared) or fields of a record of collaborators.
-/

namespace Venus

/-- Content identifier (`cid.Cid`).  `Undef` is `cid.Undef`. -/
inductive Cid where
  | Undef
  | hash (digest : Nat)
deriving DecidableEq, Repr

/-- Actor / account address (`address.Address`). -/
abbrev Address := Nat

/-- Go `error` values.  `ErrNotFound` is the block-store sentinel that the code
compares against with `==`; `wrap` is `errors.Wrap(cause, text)`. -/
inductive Error where
  | ErrNotFound
  | msg (text : String)
  | wrap (cause : Error) (text : String)
deriving DecidableEq, Repr

/-! ## Runtime adapter (`vmcontext`) -/

namespace vmcontext

/-- A state object, identified with its CBOR serialisation. -/
abbrev Obj := List Nat

/-- Exit codes used by the adapter (`exitcode.SysErrorIllegalActor`, ...). -/
inductive ExitCode where
  | SysErrorIllegalActor
  | SysErrorIllegalArgument
  | code (n : Nat)
deriving DecidableEq, Repr

/-- Values of `vmErrors.ActorError`: a message and whether the error is fatal. -/
structure ActorError where
  fatal : Bool
  text : String
deriving DecidableEq, Repr

/-- Modelled from the spec: `vmErrors.Fatal` is not among the sources; it builds the
fatal (escalating) error variant carrying the given message. -/
def Fatal (text : String) : ActorError := ⟨true, text⟩

/-- Modelled from the spec: `vmErrors.Fatalf` is not among the sources; it is `Fatal`
with a format string (the formatted argument is kept out of the message). -/
def Fatalf (format : String) (_arg : Error) : ActorError := ⟨true, format⟩

/-- What a Go `panic` inside the adapter carries.
* `abort` is the execution panic raised by `runtime.Abortf`: a message-local abort
  with an exit code;
* `wrapped` is `panic(fmt.Errorf(text, err))` with an `ActorError` cause;
* `other` is any other panic actor code may raise. -/
inductive PanicValue where
  | abort (code : ExitCode) (text : String)
  | wrapped (text : String) (cause : ActorError)
  | other (text : String)
deriving DecidableEq, Repr

/-- A panic is message-local exactly when it is the execution panic of `Abortf`. -/
def PanicValue.isAbort : PanicValue → Bool
  | .abort _ _ => true
  | _ => false

/-- A panic is fatal when it wraps a fatal `ActorError`. -/
def PanicValue.isFatal : PanicValue → Bool
  | .wrapped _ cause => cause.fatal
  | _ => false

/-- Actor row of the state tree. -/
structure Actor where
  Code : Cid
  Head : Cid
  CallSeqNum : Nat
  Balance : Nat
deriving DecidableEq, Repr

/-- Modelled from the spec: the `state.Tree` implementation is not among the sources.
The state tree is a mapping from address to actor; `getErr` and `setErr` say for
which addresses the underlying store makes a lookup or an update fail. -/
structure Tree where
  actors : Address → Option Actor
  getErr : Address → Option Error
  setErr : Address → Option Error

/-- The call `state.GetActor(ctx, addr)`.  Go returns `(act, found, err)`; here
`.error e` is `err != nil`, `.ok none` is `!found` and `.ok (some act)` is found. -/
def Tree.GetActor (t : Tree) (addr : Address) : Except Error (Option Actor) :=
  match t.getErr addr with
  | some e => .error e
  | none => .ok (t.actors addr)

/-- The call `state.SetActor(ctx, addr, act)`: the returned error and the tree afterwards. -/
def Tree.SetActor (t : Tree) (addr : Address) (act : Actor) : Option Error × Tree :=
  match t.setErr addr with
  | some e => (some e, t)
  | none => (none, { t with actors := fun x => if x = addr then some act else t.actors x })

/-- The mutable state reachable through `a.ctx`: the state tree (`ctx.rt.state`),
the object store behind `ctx.Store()` and the flag gating nested sends. -/
structure invocationContext where
  state : Tree
  store : Cid → Option Obj
  allowSideEffects : Bool

/-- The adapter handed to actor code.  `receiver` is `a.ctx.Message().Receiver()`,
fixed for the whole invocation. -/
structure runtimeAdapter where
  receiver : Address

/-- Collaborators of the adapter that are not among the sources.
* `hash` is the content hash the object store assigns to a serialised object;
* `Escalate` is `vmErrors.Escalate(err, text)` (`none` is a nil result);
* `EmptyObjectCid` is the package variable computed once by `init`. -/
structure Externals where
  hash : Obj → Cid
  Escalate : Option Error → String → Option ActorError
  EmptyObjectCid : Cid

/-- Result of an adapter operation: the value or the panic, and the context afterwards. -/
abbrev Result (α : Type) := Except PanicValue α × invocationContext

/-- The method `Receiver`. -/
def runtimeAdapter.Receiver (a : runtimeAdapter) : Address := a.receiver

/-- Modelled from the spec: `runtime.Abortf` is not among the sources; it immediately
unwinds the current message execution carrying an explicit exit code. -/
def runtimeAdapter.Abortf {α : Type} (_a : runtimeAdapter) (errExitCode : ExitCode) (text : String)
    (ctx : invocationContext) : Result α :=
  (.error (.abort errExitCode text), ctx)

/-- Modelled from the spec: `ctx.Store().StorePut` is not among the sources; it is the
content-addressed write: the object is stored under its content hash, which is returned. -/
def runtimeAdapter.StorePut (_a : runtimeAdapter) (x : Externals) (obj : Obj)
    (ctx : invocationContext) : Cid × invocationContext :=
  (x.hash obj, { ctx with store := fun c => if c = x.hash obj then some obj else ctx.store c })

/-- Modelled from the spec: `ctx.Store().StoreGet` is not among the sources; it is the
content-addressed read into `o`: the flag says whether the key was found, and the
object is the stored one when found and the caller's `o` otherwise. -/
def runtimeAdapter.StoreGet (_a : runtimeAdapter) (c : Cid) (o : Obj)
    (ctx : invocationContext) : Bool × Obj :=
  match ctx.store c with
  | some v => (true, v)
  | none => (false, o)

/-- The method `stateCommit(oldh, newh)`: the returned `ActorError` (`none` is nil)
and the context afterwards. -/
def runtimeAdapter.stateCommit (a : runtimeAdapter) (x : Externals) (oldh newh : Cid)
    (ctx : invocationContext) : Option ActorError × invocationContext :=
  match ctx.state.GetActor a.Receiver with
  | .error err => (x.Escalate (some err) "failed to get actor to commit state", ctx)
  | .ok none => (x.Escalate none "failed to get actor to commit state", ctx)
  | .ok (some act) =>
    if act.Head ≠ oldh then
      (some (Fatal "failed to update, inconsistent base reference"), ctx)
    else
      match ctx.state.SetActor a.Receiver { act with Head := newh } with
      | (some err, st) =>
        (some (Fatalf "failed to set actor in commit state: %s" err), { ctx with state := st })
      | (none, st) => (none, { ctx with state := st })

/-- The method `StateCreate(obj)`. -/
def runtimeAdapter.StateCreate (a : runtimeAdapter) (x : Externals) (obj : Obj)
    (ctx : invocationContext) : Result Unit :=
  let (c, ctx1) := a.StorePut x obj ctx
  match a.stateCommit x x.EmptyObjectCid c ctx1 with
  | (some err, ctx2) => (.error (.wrapped "failed to commit state after creating object: %w" err), ctx2)
  | (none, ctx2) => (.ok (), ctx2)

/-- The method `StateTransaction(obj, f)`.  `obj` is the object pointer (`none` is
nil, `some o` points at content `o`).  The closure `f` captures that pointer and
the context: it receives the loaded object and the context and returns the mutated
object with the context afterwards, or panics. -/
def runtimeAdapter.StateTransaction (a : runtimeAdapter) (x : Externals) (obj : Option Obj)
    (f : Obj → invocationContext → Result Obj) (ctx : invocationContext) : Result Unit :=
  match obj with
  | none => a.Abortf .SysErrorIllegalActor "Must not pass nil to Transaction()" ctx
  | some o =>
    match ctx.state.GetActor a.Receiver with
    | .error _ => a.Abortf .SysErrorIllegalActor "failed to get actor for Transaction: %s" ctx
    | .ok none => a.Abortf .SysErrorIllegalActor "failed to get actor for Transaction: %s" ctx
    | .ok (some act) =>
      let baseState := act.Head
      let loaded := (a.StoreGet baseState o ctx).2
      match f loaded { ctx with allowSideEffects := false } with
      | (.error p, ctx1) => (.error p, ctx1)
      | (.ok mutated, ctx1) =>
        let ctx2 := { ctx1 with allowSideEffects := true }
        let (c, ctx3) := a.StorePut x mutated ctx2
        match a.stateCommit x baseState c ctx3 with
        | (some err, ctx4) =>
          (.error (.wrapped "failed to commit state after transaction: %w" err), ctx4)
        | (none, ctx4) => (.ok (), ctx4)

/-- The method `StateReadonly(obj)`: the object loaded into `obj`. -/
def runtimeAdapter.StateReadonly (a : runtimeAdapter) (o : Obj) (ctx : invocationContext) :
    Result Obj :=
  match ctx.state.GetActor a.Receiver with
  | .error _ => a.Abortf .SysErrorIllegalArgument "failed to get actor for Readonly state: %s" ctx
  | .ok none => a.Abortf .SysErrorIllegalArgument "failed to get actor for Readonly state: %s" ctx
  | .ok (some act) => (.ok (a.StoreGet act.Head o ctx).2, ctx)

/-- An operation actor code invokes on the adapter from inside a mutator: one of
the state and store methods above.  A nested `StateTransaction` carries its own
object pointer and mutator. -/
inductive Op where
  | StorePut (obj : Obj)
  | StoreGet (c : Cid)
  | StateCreate (obj : Obj)
  | StateReadonly
  | Abortf (errExitCode : ExitCode) (text : String)
  | StateTransaction (obj : Option Obj) (f : Obj → invocationContext → Result Obj)

/-- Whether an operation is a `StateTransaction` call. -/
def Op.isTransaction : Op → Bool
  | .StateTransaction _ _ => true
  | _ => false

/-- Running one operation.  The object threaded through is the one the enclosing
mutator has captured; only `StateReadonly` loads into it. -/
def Op.run (a : runtimeAdapter) (x : Externals) (op : Op) (o : Obj) (ctx : invocationContext) :
    Result Obj :=
  match op with
  | .StorePut obj => (.ok o, (a.StorePut x obj ctx).2)
  | .StoreGet _ => (.ok o, ctx)
  | .StateCreate obj =>
    match a.StateCreate x obj ctx with
    | (.error p, ctx1) => (.error p, ctx1)
    | (.ok _, ctx1) => (.ok o, ctx1)
  | .StateReadonly => a.StateReadonly o ctx
  | .Abortf errExitCode text => a.Abortf errExitCode text ctx
  | .StateTransaction obj f =>
    match a.StateTransaction x obj f ctx with
    | (.error p, ctx1) => (.error p, ctx1)
    | (.ok _, ctx1) => (.ok o, ctx1)

/-- Running a sequence of operations, as the body of a mutator does.  Next to the
result it returns the value of `allowSideEffects` at every point of the run: before
each operation and, when the sequence runs to its end, after the last one. -/
def runOps (a : runtimeAdapter) (x : Externals) :
    List Op → Obj → invocationContext → Result Obj × List Bool
  | [], o, ctx => ((.ok o, ctx), [ctx.allowSideEffects])
  | op :: rest, o, ctx =>
    match op.run a x o ctx with
    | (.error p, ctx1) => ((.error p, ctx1), [ctx.allowSideEffects])
    | (.ok o1, ctx1) =>
      ((runOps a x rest o1 ctx1).1, ctx.allowSideEffects :: (runOps a x rest o1 ctx1).2)

/-- The mutator whose body is the given sequence of operations. -/
def mutatorOf (a : runtimeAdapter) (x : Externals) (ops : List Op) :
    Obj → invocationContext → Result Obj :=
  fun o ctx => (runOps a x ops o ctx).1

end vmcontext

/-! ## Buffered block store (`blockstoreutil`) -/

namespace blockstoreutil

/-- A block (`block.Block`): its key `Cid()` and its bytes `RawData()`. -/
structure Block where
  Cid : Cid
  RawData : List Nat
deriving DecidableEq, Repr

/-- Calls a layer can receive; every layer keeps a log of them. -/
inductive Call where
  | Get (c : Cid)
  | GetSize (c : Cid)
  | Has (c : Cid)
  | View (c : Cid)
  | Put (blk : Block)
  | PutMany (blks : List Block)
  | DeleteBlock (c : Cid)
deriving DecidableEq, Repr

/-- Modelled from the spec: the `Blockstore` and `Viewer` interfaces and their
implementations are not among the sources.  A layer is a content-addressed block
store with the standard contract: `blocks` is what it holds, `readErr` and
`writeErr` say for which keys a lookup or an update fails (and with which error),
`errSize` is the size `GetSize` returns next to an error (implementations differ:
`-1`, `0`, ...), and `calls` is the log of the calls the layer has received,
oldest first. -/
structure Blockstore where
  blocks : Cid → Option Block
  readErr : Cid → Option Error
  writeErr : Cid → Option Error
  errSize : Cid → Int
  calls : List Call

/-- The layer with call `k` added to its log. -/
def Blockstore.logged (s : Blockstore) (k : Call) : Blockstore :=
  { s with calls := s.calls ++ [k] }

/-- A layer's `Get(c)`: the block, `ErrNotFound` when the key is absent, or the
lookup failure of that key. -/
def Blockstore.Get (s : Blockstore) (c : Cid) : Except Error Block × Blockstore :=
  match s.readErr c with
  | some e => (.error e, s.logged (.Get c))
  | none =>
    match s.blocks c with
    | some b => (.ok b, s.logged (.Get c))
    | none => (.error .ErrNotFound, s.logged (.Get c))

/-- A layer's `GetSize(c)`: Go returns `(size, err)`; next to an error the size is
whatever the layer reports there (`errSize`). -/
def Blockstore.GetSize (s : Blockstore) (c : Cid) : (Int × Option Error) × Blockstore :=
  match s.readErr c with
  | some e => ((s.errSize c, some e), s.logged (.GetSize c))
  | none =>
    match s.blocks c with
    | some b => ((b.RawData.length, none), s.logged (.GetSize c))
    | none => ((s.errSize c, some .ErrNotFound), s.logged (.GetSize c))

/-- A layer's `Has(c)`: Go returns `(has, err)`. -/
def Blockstore.Has (s : Blockstore) (c : Cid) : (Bool × Option Error) × Blockstore :=
  match s.readErr c with
  | some e => ((false, some e), s.logged (.Has c))
  | none => (((s.blocks c).isSome, none), s.logged (.Has c))

/-- The effect of storing one block in a layer (no log entry). -/
def Blockstore.store (s : Blockstore) (blk : Block) : Option Error × Blockstore :=
  match s.writeErr blk.Cid with
  | some e => (some e, s)
  | none => (none, { s with blocks := fun c => if c = blk.Cid then some blk else s.blocks c })

/-- A layer's `Put(blk)`. -/
def Blockstore.Put (s : Blockstore) (blk : Block) : Option Error × Blockstore :=
  (s.logged (.Put blk)).store blk

/-- Storing a list of blocks one after the other, stopping at the first failure. -/
def Blockstore.storeAll (s : Blockstore) : List Block → Option Error × Blockstore
  | [] => (none, s)
  | blk :: rest =>
    match s.store blk with
    | (some e, s1) => (some e, s1)
    | (none, s1) => s1.storeAll rest

/-- A layer's `PutMany(blks)`: the blocks are stored in order; the first failure is returned. -/
def Blockstore.PutMany (s : Blockstore) (blks : List Block) : Option Error × Blockstore :=
  (s.logged (.PutMany blks)).storeAll blks

/-- A layer's `DeleteBlock(c)`. -/
def Blockstore.DeleteBlock (s : Blockstore) (c : Cid) : Option Error × Blockstore :=
  match s.writeErr c with
  | some e => (some e, s.logged (.DeleteBlock c))
  | none =>
    (none, { s.logged (.DeleteBlock c) with blocks := fun k => if k = c then none else s.blocks k })

/-- A read callback `func([]byte) error` as a Go closure: `κ` is the state it
captures, and a call returns the error (`none` is nil) and the captured state afterwards. -/
abbrev Callback (κ : Type) := List Nat → κ → Option Error × κ

/-- A viewable layer's `View(c, callback)`: the callback runs on the stored bytes
and its error is returned; an absent key gives `ErrNotFound` without running it. -/
def Blockstore.View {κ : Type} (s : Blockstore) (c : Cid) (callback : Callback κ) (k : κ) :
    (Option Error × κ) × Blockstore :=
  match s.readErr c with
  | some e => ((some e, k), s.logged (.View c))
  | none =>
    match s.blocks c with
    | some b => (callback b.RawData k, s.logged (.View c))
    | none => ((some .ErrNotFound, k), s.logged (.View c))

/-- Reference to a store.  The fields of `BufferedBS` are Go interface values, that
is references: two of them may denote one and the same store. -/
abbrev Ref := Nat

/-- The stores in memory, by reference. -/
abbrev Stores := Ref → Blockstore

/-- The memory with the store behind reference `r` replaced by `s`. -/
def setStore (h : Stores) (r : Ref) (s : Blockstore) : Stores :=
  fun k => if k = r then s else h k

/-- The struct `BufferedBS`: references to the base layer `read` and to the overlay
`write`, and whether `readviewer` and `writeviewer` are set (non-nil); when set
they are the same stores as `read` and `write`.  `read` and `write` may be the same
reference (overlay == base). -/
structure BufferedBS where
  read : Ref
  write : Ref
  readviewer : Bool
  writeviewer : Bool
deriving DecidableEq, Repr

/-- The constructor `NewBufferedBstore(base)`.  `env` is the value of the environment
variable `LOTUS_DISABLE_VM_BUF`; `temporary` is the reference to the fresh store
`NewTemporary()` returns; `baseIsViewer` and `temporaryIsViewer` say whether the
two stores implement `Viewer`.  (The warnings it logs have no effect on the result.) -/
def NewBufferedBstore (env : String) (base : Ref) (baseIsViewer : Bool) (temporary : Ref)
    (temporaryIsViewer : Bool) : BufferedBS :=
  if env = "iknowitsabadidea" then
    { read := base, write := base, readviewer := baseIsViewer, writeviewer := baseIsViewer }
  else
    { read := base, write := temporary, readviewer := baseIsViewer,
      writeviewer := temporaryIsViewer }

/-- The constructor `NewTieredBstore(r, w)`: no viewer is set. -/
def NewTieredBstore (r w : Ref) : BufferedBS :=
  { read := r, write := w, readviewer := false, writeviewer := false }

/-- The method `Get(c)`: the result and the stores afterwards. -/
def BufferedBS.Get (bs : BufferedBS) (c : Cid) (h : Stores) : Except Error Block × Stores :=
  match (h bs.write).Get c with
  | (.error err, w1) =>
    if err ≠ .ErrNotFound then
      (.error err, setStore h bs.write w1)
    else
      let h1 := setStore h bs.write w1
      let res := (h1 bs.read).Get c
      (res.1, setStore h1 bs.read res.2)
  | (.ok out, w1) => (.ok out, setStore h bs.write w1)

/-- The method `View(c, callback)`. -/
def BufferedBS.View {κ : Type} (bs : BufferedBS) (c : Cid) (callback : Callback κ) (k : κ)
    (h : Stores) : (Option Error × κ) × Stores :=
  if bs.writeviewer = false ∨ bs.readviewer = false then
    match bs.Get c h with
    | (.error err, h1) => ((some err, k), h1)
    | (.ok blk, h1) => (callback blk.RawData k, h1)
  else
    match (h bs.write).View c callback k with
    | ((some err, k1), w1) =>
      if err = .ErrNotFound then
        let h1 := setStore h bs.write w1
        let res := (h1 bs.read).View c callback k1
        (res.1, setStore h1 bs.read res.2)
      else
        ((some err, k1), setStore h bs.write w1)
    | ((none, k1), w1) => ((none, k1), setStore h bs.write w1)

/-- The method `GetSize(c)`. -/
def BufferedBS.GetSize (bs : BufferedBS) (c : Cid) (h : Stores) :
    (Int × Option Error) × Stores :=
  match (h bs.read).GetSize c with
  | ((s, err), r1) =>
    if err = some .ErrNotFound ∨ s = 0 then
      let h1 := setStore h bs.read r1
      let res := (h1 bs.write).GetSize c
      (res.1, setStore h1 bs.write res.2)
    else
      ((s, err), setStore h bs.read r1)

/-- The method `Put(blk)`. -/
def BufferedBS.Put (bs : BufferedBS) (blk : Block) (h : Stores) : Option Error × Stores :=
  match (h bs.read).Has blk.Cid with
  | ((_, some err), r1) => (some err, setStore h bs.read r1)
  | ((has, none), r1) =>
    if has then
      (none, setStore h bs.read r1)
    else
      let h1 := setStore h bs.read r1
      let res := (h1 bs.write).Put blk
      (res.1, setStore h1 bs.write res.2)

/-- The method `Has(c)`. -/
def BufferedBS.Has (bs : BufferedBS) (c : Cid) (h : Stores) : (Bool × Option Error) × Stores :=
  match (h bs.write).Has c with
  | ((_, some err), w1) => ((false, some err), setStore h bs.write w1)
  | ((has, none), w1) =>
    if has then
      ((true, none), setStore h bs.write w1)
    else
      let h1 := setStore h bs.write w1
      let res := (h1 bs.read).Has c
      (res.1, setStore h1 bs.read res.2)

/-- The method `DeleteBlock(c)`. -/
def BufferedBS.DeleteBlock (bs : BufferedBS) (c : Cid) (h : Stores) : Option Error × Stores :=
  match (h bs.read).DeleteBlock c with
  | (some err, r1) => (some err, setStore h bs.read r1)
  | (none, r1) =>
    let h1 := setStore h bs.read r1
    let res := (h1 bs.write).DeleteBlock c
    (res.1, setStore h1 bs.write res.2)

/-- The method `PutMany(blks)`. -/
def BufferedBS.PutMany (bs : BufferedBS) (blks : List Block) (h : Stores) :
    Option Error × Stores :=
  (((h bs.write).PutMany blks).1, setStore h bs.write ((h bs.write).PutMany blks).2)

/-- The copying read the spec compares `View` with: do `Get(c)` and, on success,
call the callback once on the returned block's bytes; on failure return the error
of `Get` without calling the callback.  The result is the error and the state the
callback captures. -/
def viewByGet {κ : Type} (bs : BufferedBS) (c : Cid) (callback : Callback κ) (k : κ)
    (h : Stores) : Option Error × κ :=
  match (bs.Get c h).1 with
  | .error err => (some err, k)
  | .ok blk => callback blk.RawData k

end blockstoreutil

/-! ## Ticket machine and consensus driver (`consensus`) -/

namespace consensus

/-- Key of a tipset (`block.TipSetKey`): the identifiers of its blocks. -/
abbrev TipSetKey := List Cid

/-- Height / time slot of a round (`abi.ChainEpoch`). -/
abbrev ChainEpoch := Int

/-- A ticket (`block.Ticket`): only the proof bytes are retained. -/
structure Ticket where
  VRFProof : List Nat
deriving DecidableEq, Repr

/-- A beacon entry (`block.BeaconEntry`). -/
structure BeaconEntry where
  Round : Nat
  Data : List Nat
deriving DecidableEq, Repr

/-- The header fields `RunStateTransition` reads from `ts.At(0)`. -/
structure BlockHeader where
  Height : ChainEpoch
  ParentBaseFee : Nat
deriving DecidableEq, Repr

/-- Modelled from the spec: `block.TipSet` is not among the sources.  A tipset is
given by what the methods used here return: `Key()`, `EnsureHeight()`, `Parents()`
(a key or an error), `MinTicket()` and `At(0)`. -/
structure TipSet where
  Key : TipSetKey
  EnsureHeight : ChainEpoch
  Parents : Except Error TipSetKey
  MinTicket : Ticket
  At0 : BlockHeader

/-- Domain separation tags (`acrypto.DomainSeparationTag`). -/
inductive DomainSeparationTag where
  | TicketProduction
  | ElectionProofProduction
  | tag (n : Nat)
deriving DecidableEq, Repr

/-- A signature (`crypto.Signature`): the scheme and the signature bytes. -/
structure Signature where
  SigType : Nat
  Data : List Nat
deriving DecidableEq, Repr

/-- The interface `types.Signer`: `SignBytes(ctx, data, addr)`. -/
structure Signer where
  SignBytes : List Nat → Address → Except Error Signature

/-- Primitives the ticket machine invokes that are not among the sources:
`address.Address.MarshalCBOR`, `blake2b.Sum256`, `chain.BlendEntropy` and
`crypto.ValidateBlsSignature` (`none` is a nil error: the signature verifies). -/
structure Primitives where
  MarshalCBOR : Address → Except Error (List Nat)
  Sum256 : List Nat → List Nat
  BlendEntropy : DomainSeparationTag → List Nat → ChainEpoch → List Nat → Except Error (List Nat)
  ValidateBlsSignature : List Nat → Address → List Nat → Option Error

/-- The struct `TicketMachine`; `tipsetLoader` is `tm.tipsetLoader.GetTipSet`. -/
structure TicketMachine where
  tipsetLoader : TipSetKey → Except Error TipSet

/-- The entropy buffer built by `ticketVRFRandomness` before blending: the encoded
miner address, followed by the base tipset's minimum ticket proof when
`bSmokeHeight` holds.  The list is the log of keys the tipset loader was asked for. -/
def TicketMachine.entropy (tm : TicketMachine) (p : Primitives) (base : TipSetKey)
    (bSmokeHeight : Bool) (miner : Address) : Except Error (List Nat) × List TipSetKey :=
  match p.MarshalCBOR miner with
  | .error err => (.error (.wrap err "failed to encode miner entropy"), [])
  | .ok entropyBuf =>
    if bSmokeHeight then
      match tm.tipsetLoader base with
      | .error err => (.error err, [base])
      | .ok ts => (.ok (entropyBuf ++ ts.MinTicket.VRFProof), [base])
    else
      (.ok entropyBuf, [])

/-- The method `ticketVRFRandomness`: the randomness or the error, and the log of
keys the tipset loader was asked for. -/
def TicketMachine.ticketVRFRandomness (tm : TicketMachine) (p : Primitives) (base : TipSetKey)
    (entry : BeaconEntry) (bSmokeHeight : Bool) (miner : Address) (epoch : ChainEpoch) :
    Except Error (List Nat) × List TipSetKey :=
  match tm.entropy p base bSmokeHeight miner with
  | (.error err, asked) => (.error err, asked)
  | (.ok entropyBuf, asked) =>
    let seed := p.Sum256 entry.Data
    (p.BlendEntropy .TicketProduction seed epoch entropyBuf, asked)

/-- The method `MakeTicket`. -/
def TicketMachine.MakeTicket (tm : TicketMachine) (p : Primitives) (base : TipSetKey)
    (epoch : ChainEpoch) (miner : Address) (entry : BeaconEntry) (newPeriod : Bool)
    (worker : Address) (signer : Signer) : Except Error Ticket × List TipSetKey :=
  match tm.ticketVRFRandomness p base entry newPeriod miner epoch with
  | (.error err, asked) => (.error (.wrap err "failed to generate ticket randomness"), asked)
  | (.ok randomness, asked) =>
    match signer.SignBytes randomness worker with
    | .error err => (.error (.wrap err "failed to sign election post randomness"), asked)
    | .ok vrfProof => (.ok { VRFProof := vrfProof.Data }, asked)

/-- The method `IsValidTicket`: the returned error (`none` is nil: the ticket is valid). -/
def TicketMachine.IsValidTicket (tm : TicketMachine) (p : Primitives) (base : TipSetKey)
    (entry : BeaconEntry) (bSmokeHeight : Bool) (epoch : ChainEpoch) (miner : Address)
    (workerSigner : Address) (ticket : Ticket) : Option Error × List TipSetKey :=
  match tm.ticketVRFRandomness p base entry bSmokeHeight miner epoch with
  | (.error err, asked) => (some (.wrap err "failed to generate ticket randomness"), asked)
  | (.ok randomness, asked) => (p.ValidateBlsSignature randomness workerSigner ticket.VRFProof, asked)

/-- A message (`types.UnsignedMessage`). -/
structure UnsignedMessage where
  From : Address
  To : Address
  Method : Nat
  Params : List Nat
  Value : Nat
  GasLimit : Int
  Nonce : Nat
deriving DecidableEq, Repr

/-- A signed message (`types.SignedMessage`). -/
structure SignedMessage where
  Message : UnsignedMessage
  Signature : Signature
deriving DecidableEq, Repr

/-- The struct `BlockMessagesInfo`: the messages of one block of a tipset. -/
structure BlockMessagesInfo where
  BLSMessages : List UnsignedMessage
  SECPMessages : List SignedMessage
  Miner : Address
  WinCount : Int
deriving DecidableEq, Repr

/-- A receipt (`types.MessageReceipt`). -/
structure MessageReceipt where
  ExitCode : Int
  ReturnValue : List Nat
  GasUsed : Int
deriving DecidableEq, Repr

/-- The struct `HeadRandomness`: a chain randomness source scoped to a head key. -/
structure HeadRandomness where
  Chain : Nat
  Head : TipSetKey
deriving DecidableEq, Repr

/-- The struct `vm.VmOption`, the execution environment handed to the processor.
Collaborator objects the driver only passes along (`Fork`, `GasPriceSchedule`,
`Bsstore`, `SysCallsImpl`, the chain randomness) are identified by a handle; state
trees handed to the circulating-supply function are identified by a handle too. -/
structure VmOption where
  CircSupplyCalculator : ChainEpoch → Nat → Except Error Nat
  NtwkVersionGetter : ChainEpoch → Nat
  Rnd : HeadRandomness
  BaseFee : Nat
  Fork : Nat
  Epoch : ChainEpoch
  GasPriceSchedule : Nat
  Bsstore : Nat
  PRoot : Cid
  SysCallsImpl : Nat

/-- The struct `Expected` with the collaborators `RunStateTransition` uses:
`LoadTipSetMessage` of `c.messageStore`, `GetTipSet` and
`GetCirculatingSupplyDetailed` (its `FilCirculating` component) of `c.chainState`,
`ProcessTipSet` of `c.processor`, `GetNtwkVersion` of `c.fork`, and the objects
that are passed along by handle. -/
structure Expected where
  LoadTipSetMessage : TipSet → Except Error (List BlockMessagesInfo)
  GetTipSet : TipSetKey → Except Error TipSet
  GetCirculatingSupplyDetailed : ChainEpoch → Nat → Except Error Nat
  ProcessTipSet : TipSet → TipSet → List BlockMessagesInfo → VmOption →
    Except Error (Cid × List MessageReceipt)
  GetNtwkVersion : ChainEpoch → Nat
  rnd : Nat
  fork : Nat
  gasPirceSchedule : Nat
  bstore : Nat
  syscallsImpl : Nat

/-- Calls `RunStateTransition` makes on its collaborators, in the order made. -/
inductive Event where
  | LoadTipSetMessage (ts : TipSet)
  | GetTipSet (key : TipSetKey)
  | ProcessTipSet (pts ts : TipSet) (blocks : List BlockMessagesInfo) (opt : VmOption)

/-- Whether an event is a call of the processor. -/
def Event.isProcess : Event → Bool
  | .ProcessTipSet _ _ _ _ => true
  | _ => false

/-- The environment `RunStateTransition` builds for the processor. -/
def Expected.vmOption (c : Expected) (ts : TipSet) (parentStateRoot : Cid) : VmOption :=
  { CircSupplyCalculator := fun epoch tree =>
      match c.GetCirculatingSupplyDetailed epoch tree with
      | .error err => .error err
      | .ok dertail => .ok dertail
    NtwkVersionGetter := c.GetNtwkVersion
    Rnd := { Chain := c.rnd, Head := ts.Key }
    BaseFee := ts.At0.ParentBaseFee
    Fork := c.fork
    Epoch := ts.At0.Height
    GasPriceSchedule := c.gasPirceSchedule
    Bsstore := c.bstore
    PRoot := parentStateRoot
    SysCallsImpl := c.syscallsImpl }

/-- The method `RunStateTransition(ctx, ts, parentStateRoot)`.  Go returns
`(root, receipts, err)`; a nil receipt slice is `[]` and a nil error is `none`.
The second component is the log of the calls made on the collaborators.  (The
trace span opened at the start has no effect on the result.) -/
def Expected.RunStateTransition (c : Expected) (ts : TipSet) (parentStateRoot : Cid) :
    (Cid × List MessageReceipt × Option Error) × List Event :=
  match c.LoadTipSetMessage ts with
  | .error _ => ((Cid.Undef, [], none), [.LoadTipSetMessage ts])
  | .ok blockMessageInfo =>
    if ts.EnsureHeight > 0 then
      match ts.Parents with
      | .error err => ((Cid.Undef, [], some err), [.LoadTipSetMessage ts])
      | .ok parent =>
        match c.GetTipSet parent with
        | .error err => ((Cid.Undef, [], some err), [.LoadTipSetMessage ts, .GetTipSet parent])
        | .ok pts =>
          let vmOption := c.vmOption ts parentStateRoot
          let log := [Event.LoadTipSetMessage ts, .GetTipSet parent,
            .ProcessTipSet pts ts blockMessageInfo vmOption]
          match c.ProcessTipSet pts ts blockMessageInfo vmOption with
          | .error err => ((Cid.Undef, [], some (.wrap err "error validating tipset")), log)
          | .ok (root, receipts) => ((root, receipts, none), log)
    else
      ((Cid.Undef, [], none), [.LoadTipSetMessage ts])

end consensus

end Venus

/-! ## Concrete instances used to exercise the theorems -/

namespace Venus

namespace vmcontext

/-- A toy content hash: the sum of the bytes. -/
def sumHash (o : Obj) : Cid := .hash o.sum

/-- Collaborators for the examples: `Escalate` returns nil for a nil cause and a
fatal error otherwise; the empty object is the CBOR empty list `[0x80]`. -/
def exampleExternals : Externals :=
  { hash := sumHash
    Escalate := fun err text => err.map fun _ => Fatal text
    EmptyObjectCid := sumHash [128] }

/-- The adapter of an invocation whose receiver is address `1`. -/
def exampleAdapter : runtimeAdapter := { receiver := 1 }

/-- An actor whose head is the object `[3, 4]`. -/
def exampleActor : Actor := { Code := .hash 100, Head := sumHash [3, 4], CallSeqNum := 0, Balance := 10 }

/-- A healthy tree holding `exampleActor` at address `1`. -/
def exampleTree : Tree :=
  { actors := fun addr => if addr = 1 then some exampleActor else none
    getErr := fun _ => none
    setErr := fun _ => none }

/-- A context over `exampleTree` whose store holds the head object. -/
def exampleContext : invocationContext :=
  { state := exampleTree
    store := fun c => if c = sumHash [3, 4] then some [3, 4] else none
    allowSideEffects := true }

/-- A context whose receiver was just created: its head is the empty object. -/
def freshContext : invocationContext :=
  { exampleContext with
    state := { exampleTree with
      actors := fun addr =>
        if addr = 1 then some { exampleActor with Head := exampleExternals.EmptyObjectCid }
        else none } }

/-- A mutator that appends a byte to the object and leaves the tree alone. -/
def appendMutator : Obj → invocationContext → Result Obj :=
  fun o ctx => (.ok (o ++ [5]), ctx)

/-- A mutator that appends a byte to the object and, behind the transaction's back,
forces the receiver's head to another value. -/
def racingMutator : Obj → invocationContext → Result Obj :=
  fun o ctx =>
    (.ok (o ++ [5]),
      { ctx with state := (ctx.state.SetActor 1 { exampleActor with Head := .hash 99 }).2 })

end vmcontext

end Venus

namespace Venus

namespace consensus

/-- A genesis tipset: height `0`, no parents. -/
def genesisTipSet : TipSet :=
  { Key := [.hash 1]
    EnsureHeight := 0
    Parents := .ok []
    MinTicket := { VRFProof := [9, 9] }
    At0 := { Height := 0, ParentBaseFee := 100 } }

/-- A tipset at height `1` whose parent is `genesisTipSet`. -/
def childTipSet : TipSet :=
  { Key := [.hash 2]
    EnsureHeight := 1
    Parents := .ok [.hash 1]
    MinTicket := { VRFProof := [7] }
    At0 := { Height := 1, ParentBaseFee := 100 } }

/-- The messages of the one block of the example tipsets. -/
def exampleMessages : List BlockMessagesInfo :=
  [{ BLSMessages := [], SECPMessages := [], Miner := 5, WinCount := 1 }]

/-- A driver whose message store and chain reader always answer and whose
processor returns the root `hash 42` with one receipt. -/
def exampleExpected : Expected :=
  { LoadTipSetMessage := fun _ => .ok exampleMessages
    GetTipSet := fun _ => .ok genesisTipSet
    GetCirculatingSupplyDetailed := fun _ _ => .ok 0
    ProcessTipSet := fun _ _ _ _ => .ok (.hash 42, [{ ExitCode := 0, ReturnValue := [], GasUsed := 3 }])
    GetNtwkVersion := fun _ => 0
    rnd := 0
    fork := 0
    gasPirceSchedule := 0
    bstore := 0
    syscallsImpl := 0 }

/-- Toy primitives: the address encodes as one byte, the hash of a byte string is
its sum, blending concatenates its inputs, and a signature by `w` over `data` is
`w` followed by `data`. -/
def examplePrimitives : Primitives :=
  { MarshalCBOR := fun addr => .ok [addr]
    Sum256 := fun data => [data.sum]
    BlendEntropy := fun tag seed epoch entropy =>
      .ok ((if tag = .TicketProduction then [1] else [0]) ++ seed ++ [epoch.toNat] ++ entropy)
    ValidateBlsSignature := fun data worker proof =>
      if proof = worker :: data then none else some (.msg "bls signature failed to verify") }

/-- The signer matching `examplePrimitives`. -/
def exampleSigner : Signer :=
  { SignBytes := fun data addr => .ok { SigType := 2, Data := addr :: data } }

/-- A ticket machine whose loader resolves every key to `genesisTipSet`. -/
def exampleTicketMachine : TicketMachine :=
  { tipsetLoader := fun _ => .ok genesisTipSet }

/-- A beacon entry. -/
def exampleEntry : BeaconEntry := { Round := 4, Data := [10, 20] }

end consensus

end Venus

namespace Venus

namespace blockstoreutil

/-- A layer that holds nothing, never fails, has received no call, and whose
`GetSize` returns `-1` next to an error. -/
def emptyStore : Blockstore :=
  { blocks := fun _ => none, readErr := fun _ => none, writeErr := fun _ => none,
    errSize := fun _ => -1, calls := [] }

/-- A healthy layer holding exactly one block. -/
def singleton (blk : Block) : Blockstore :=
  { emptyStore with blocks := fun c => if c = blk.Cid then some blk else none }

/-- A layer on which every lookup fails with an input/output error. -/
def brokenStore : Blockstore :=
  { emptyStore with readErr := fun _ => some (.msg "input/output error") }

/-- The block with key `hash 1`. -/
def blockOne : Block := { Cid := .hash 1, RawData := [1, 2] }

/-- The block with key `hash 2`. -/
def blockTwo : Block := { Cid := .hash 2, RawData := [3] }

/-- The block of zero length. -/
def emptyBlock : Block := { Cid := .hash 0, RawData := [] }

/-- Memory in which reference `0` is the store `base` and every other reference is
the store `overlay`. -/
def storesOf (base overlay : Blockstore) : Stores :=
  fun r => if r = 0 then base else overlay

/-- A buffered store with base `0` and overlay `1`, two distinct stores, and no viewer. -/
def layered : BufferedBS := NewTieredBstore 0 1

/-- A buffered store with base `0` and overlay `1`, both viewable. -/
def viewable : BufferedBS :=
  { read := 0, write := 1, readviewer := true, writeviewer := true }

/-- The buffered store built over base `0` with buffering disabled: the overlay is the base. -/
def unbuffered : BufferedBS := NewBufferedBstore "iknowitsabadidea" 0 false 1 false

/-- The base holds `blockOne`, the overlay is empty. -/
def baseOnly : Stores := storesOf (singleton blockOne) emptyStore

/-- Both layers hold `blockOne`. -/
def bothHold : Stores := storesOf (singleton blockOne) (singleton blockOne)

/-- The base holds `blockOne`, lookups on the overlay fail. -/
def brokenOverlay : Stores := storesOf (singleton blockOne) brokenStore

/-- The base holds the zero-length block, the overlay is empty. -/
def emptyBlockInBase : Stores := storesOf (singleton emptyBlock) emptyStore

/-- The overlay holds `blockOne`, lookups on the base fail and its `GetSize`
returns `-1` next to the error. -/
def brokenBase : Stores := storesOf brokenStore (singleton blockOne)

/-- Every store is empty. -/
def allEmpty : Stores := storesOf emptyStore emptyStore

/-- A callback that counts its calls and reports `ErrNotFound` on the first one only. -/
def notFoundOnce : Callback Nat :=
  fun _ n => (if n = 0 then some .ErrNotFound else none, n + 1)

end blockstoreutil

end Venus

namespace Venus

namespace vmcontext

/-- A mutator that leaves the object and the context alone. -/
def idleMutator : Obj → invocationContext → Result Obj :=
  fun o ctx => (.ok o, ctx)

/-- The body of a mutator that runs a transaction of its own and then stores a blob. -/
def nestingOps : List Op :=
  [.StateTransaction (some []) idleMutator, .StorePut [9]]

end vmcontext

namespace consensus

/-- A driver like `exampleExpected` whose message store fails to load any tipset. -/
def failingLoadExpected : Expected :=
  { exampleExpected with LoadTipSetMessage := fun _ => .error (.msg "failed to load messages") }

end consensus

end Venus

/-! ## Theorems -/

namespace Venus

namespace vmcontext

theorem GetActor_SetActor_self (t : Tree) (addr : Address) (act : Actor)
    (hget : t.getErr addr = none) (hset : t.setErr addr = none) :
    (t.SetActor addr act).2.GetActor addr = .ok (some act) := by
  simp [Tree.SetActor, Tree.GetActor, hget, hset]

theorem stateCommit_of_lookup_error (a : runtimeAdapter) (x : Externals) (oldh newh : Cid)
    (ctx : invocationContext) (err : Error)
    (h : ctx.state.GetActor a.Receiver = .error err) :
    a.stateCommit x oldh newh ctx =
      (x.Escalate (some err) "failed to get actor to commit state", ctx) := by
  simp [runtimeAdapter.stateCommit, h]

theorem stateCommit_of_missing (a : runtimeAdapter) (x : Externals) (oldh newh : Cid)
    (ctx : invocationContext) (h : ctx.state.GetActor a.Receiver = .ok none) :
    a.stateCommit x oldh newh ctx =
      (x.Escalate none "failed to get actor to commit state", ctx) := by
  simp [runtimeAdapter.stateCommit, h]

theorem stateCommit_of_changed_head (a : runtimeAdapter) (x : Externals) (oldh newh : Cid)
    (ctx : invocationContext) (act : Actor)
    (h : ctx.state.GetActor a.Receiver = .ok (some act)) (hne : act.Head ≠ oldh) :
    a.stateCommit x oldh newh ctx =
      (some (Fatal "failed to update, inconsistent base reference"), ctx) := by
  simp [runtimeAdapter.stateCommit, h, hne]

theorem stateCommit_of_same_head (a : runtimeAdapter) (x : Externals) (oldh newh : Cid)
    (ctx : invocationContext) (act : Actor)
    (h : ctx.state.GetActor a.Receiver = .ok (some act)) (heq : act.Head = oldh) :
    a.stateCommit x oldh newh ctx =
      match ctx.state.SetActor a.Receiver { act with Head := newh } with
      | (some err, st) =>
        (some (Fatalf "failed to set actor in commit state: %s" err), { ctx with state := st })
      | (none, st) => (none, { ctx with state := st }) := by
  simp [runtimeAdapter.stateCommit, h, heq]

theorem StateTransaction_of_returning_mutator (a : runtimeAdapter) (x : Externals) (o : Obj)
    (f : Obj → invocationContext → Result Obj) (ctx : invocationContext) (act : Actor)
    (m : Obj) (ctx1 : invocationContext)
    (hact : ctx.state.GetActor a.Receiver = .ok (some act))
    (hf : f (a.StoreGet act.Head o ctx).2 { ctx with allowSideEffects := false } = (.ok m, ctx1)) :
    a.StateTransaction x (some o) f ctx =
      match a.stateCommit x act.Head (x.hash m)
          (a.StorePut x m { ctx1 with allowSideEffects := true }).2 with
      | (some err, ctx4) =>
        (.error (.wrapped "failed to commit state after transaction: %w" err), ctx4)
      | (none, ctx4) => (.ok (), ctx4) := by
  simp [runtimeAdapter.StateTransaction, hact, hf, runtimeAdapter.StorePut]

/-- C1. `StateTransaction` is a compare-and-swap on the receiver's head.  Let the
receiver exist with head `act.Head` when the transaction starts and let the
mutator end in outcome `r` and context `ctx1`.  Then (i) the tree the transaction
leaves is the tree the mutator left, unless the head found at commit time equals
the head read at the start, in which case it may be that tree with the receiver's
head set to the hash of the re-serialised object; (ii) if the mutator returned and
the head found at commit time differs from the head read at the start, the
transaction panics with a fatal error that is not a message-local abort, and the
tree and the receiver's head are left as the mutator left them; (iii) if the head
is unchanged and the tree accepts the update, the transaction succeeds and the
receiver's head is the hash of the re-serialised object. -/
theorem StateTransaction_commits_only_on_unchanged_head
    (a : runtimeAdapter) (x : Externals) (o : Obj)
    (f : Obj → invocationContext → Result Obj) (ctx : invocationContext) (act : Actor)
    (r : Except PanicValue Obj) (ctx1 : invocationContext)
    (hact : ctx.state.GetActor a.Receiver = .ok (some act))
    (hf : f (a.StoreGet act.Head o ctx).2 { ctx with allowSideEffects := false } = (r, ctx1)) :
    ((a.StateTransaction x (some o) f ctx).2.state = ctx1.state ∨
      ∃ mutated act1, r = .ok mutated ∧
        ctx1.state.GetActor a.Receiver = .ok (some act1) ∧ act1.Head = act.Head ∧
        (a.StateTransaction x (some o) f ctx).1 = .ok () ∧
        (a.StateTransaction x (some o) f ctx).2.state =
          (ctx1.state.SetActor a.Receiver { act1 with Head := x.hash mutated }).2) ∧
    (∀ mutated act1, r = .ok mutated →
        ctx1.state.GetActor a.Receiver = .ok (some act1) → act1.Head ≠ act.Head →
        (a.StateTransaction x (some o) f ctx).1 =
          .error (.wrapped "failed to commit state after transaction: %w"
            (Fatal "failed to update, inconsistent base reference")) ∧
        (∀ p, (a.StateTransaction x (some o) f ctx).1 = .error p →
          p.isFatal = true ∧ p.isAbort = false) ∧
        (a.StateTransaction x (some o) f ctx).2.state = ctx1.state ∧
        (a.StateTransaction x (some o) f ctx).2.state.GetActor a.Receiver = .ok (some act1)) ∧
    (∀ mutated act1, r = .ok mutated →
        ctx1.state.GetActor a.Receiver = .ok (some act1) → act1.Head = act.Head →
        ctx1.state.setErr a.Receiver = none →
        (a.StateTransaction x (some o) f ctx).1 = .ok () ∧
        (a.StateTransaction x (some o) f ctx).2.state.GetActor a.Receiver =
          .ok (some { act1 with Head := x.hash mutated })) := by
  cases r with
  | error p =>
    refine ⟨Or.inl ?_, ?_, ?_⟩
    · simp [runtimeAdapter.StateTransaction, hact, hf]
    · intro mutated act1 h; cases h
    · intro mutated act1 h; cases h
  | ok m =>
    have hrun := StateTransaction_of_returning_mutator a x o f ctx act m ctx1 hact hf
    refine ⟨?_, ?_, ?_⟩
    · rcases hlook : ctx1.state.GetActor a.Receiver with err | _ | act1
      · left
        rw [hrun, stateCommit_of_lookup_error a x _ _ _ err (by simpa using hlook)]
        cases x.Escalate (some err) "failed to get actor to commit state" <;> rfl
      · left
        rw [hrun, stateCommit_of_missing a x _ _ _ (by simpa using hlook)]
        cases x.Escalate none "failed to get actor to commit state" <;> rfl
      · by_cases hhead : act1.Head = act.Head
        · cases hset : ctx1.state.setErr a.Receiver with
          | some e =>
            left
            rw [hrun, stateCommit_of_same_head a x _ _ _ act1 (by simpa using hlook) hhead]
            simp [Tree.SetActor, hset, runtimeAdapter.StorePut]
          | none =>
            right
            refine ⟨m, act1, rfl, rfl, hhead, ?_, ?_⟩
            · rw [hrun, stateCommit_of_same_head a x _ _ _ act1 (by simpa using hlook) hhead]
              simp [Tree.SetActor, hset, runtimeAdapter.StorePut]
            · rw [hrun, stateCommit_of_same_head a x _ _ _ act1 (by simpa using hlook) hhead]
              simp [Tree.SetActor, hset, runtimeAdapter.StorePut]
        · left
          rw [hrun, stateCommit_of_changed_head a x _ _ _ act1 (by simpa using hlook) hhead]
          rfl
    · intro mutated act1 hm hlook hhead
      cases hm
      rw [hrun, stateCommit_of_changed_head a x _ _ _ act1 (by simpa using hlook) hhead]
      refine ⟨rfl, ?_, rfl, by simpa using hlook⟩
      intro p hp
      cases hp
      exact ⟨rfl, rfl⟩
    · intro mutated act1 hm hlook hhead hset
      cases hm
      rw [hrun, stateCommit_of_same_head a x _ _ _ act1 (by simpa using hlook) hhead]
      have hget : ctx1.state.getErr a.Receiver = none := by
        unfold Tree.GetActor at hlook
        cases h : ctx1.state.getErr a.Receiver with
        | none => rfl
        | some e => simp [h] at hlook
      have := GetActor_SetActor_self ctx1.state a.Receiver { act1 with Head := x.hash m } hget hset
      simp [Tree.SetActor, hset, runtimeAdapter.StorePut] at this ⊢
      exact this

/-- Witness for C1: a mutator that forces the receiver's head to another value makes the
transaction panic with the fatal commit error, and the forced head stays in the tree. -/
theorem StateTransaction_commits_only_on_unchanged_head_witness :
    (exampleAdapter.StateTransaction exampleExternals (some [0]) racingMutator exampleContext).1 =
        .error (.wrapped "failed to commit state after transaction: %w"
          (Fatal "failed to update, inconsistent base reference")) ∧
      (exampleAdapter.StateTransaction exampleExternals (some [0]) racingMutator
          exampleContext).2.state.GetActor exampleAdapter.Receiver =
        .ok (some { exampleActor with Head := .hash 99 }) :=
  have h := (StateTransaction_commits_only_on_unchanged_head exampleAdapter exampleExternals [0]
    racingMutator exampleContext exampleActor (.ok [3, 4, 5])
    { exampleContext with
      state := (exampleTree.SetActor 1 { exampleActor with Head := .hash 99 }).2
      allowSideEffects := false } rfl rfl).2.1
    [3, 4, 5] { exampleActor with Head := .hash 99 } rfl rfl (by decide)
  ⟨h.1, h.2.2.2⟩

/-- C7, counterexample.  The receiver exists with head `hash 7`, which is not the
empty object; `StateCreate` panics with the fatal commit error and the head is
left as it was, not set to the hash of the stored object. -/
theorem StateCreate_rejects_existing_head :
    exampleContext.state.GetActor exampleAdapter.Receiver = .ok (some exampleActor) ∧
      (exampleAdapter.StateCreate exampleExternals [1] exampleContext).1 =
        .error (.wrapped "failed to commit state after creating object: %w"
          (Fatal "failed to update, inconsistent base reference")) ∧
      (exampleAdapter.StateCreate exampleExternals [1] exampleContext).2.state.GetActor
          exampleAdapter.Receiver = .ok (some exampleActor) ∧
      exampleActor.Head ≠ (exampleAdapter.StorePut exampleExternals [1] exampleContext).1 := by
  refine ⟨rfl, rfl, rfl, ?_⟩
  decide

/-- C7, amended.  For every receiver actor that exists in the state tree:
if its current head is the empty-object reference `EmptyObjectCid` and the tree
accepts the update, `StateCreate(obj)` stores the serialisation of `obj`, succeeds,
and afterwards the actor's head is the hash returned by `StorePut(obj)`; if its
current head is anything else, `StateCreate` panics with the fatal commit error and
the tree is left as it was. -/
theorem StateCreate_commits_on_empty_head (a : runtimeAdapter) (x : Externals) (obj : Obj)
    (ctx : invocationContext) (act : Actor)
    (hact : ctx.state.GetActor a.Receiver = .ok (some act)) :
    (act.Head = x.EmptyObjectCid → ctx.state.setErr a.Receiver = none →
      (a.StateCreate x obj ctx).1 = .ok () ∧
      (a.StateCreate x obj ctx).2.store (a.StorePut x obj ctx).1 = some obj ∧
      (a.StateCreate x obj ctx).2.state.GetActor a.Receiver =
        .ok (some { act with Head := (a.StorePut x obj ctx).1 })) ∧
    (act.Head ≠ x.EmptyObjectCid →
      (a.StateCreate x obj ctx).1 =
        .error (.wrapped "failed to commit state after creating object: %w"
          (Fatal "failed to update, inconsistent base reference")) ∧
      (a.StateCreate x obj ctx).2.state = ctx.state) := by
  have hrun : a.StateCreate x obj ctx =
      match a.stateCommit x x.EmptyObjectCid (x.hash obj) (a.StorePut x obj ctx).2 with
      | (some err, ctx2) =>
        (.error (.wrapped "failed to commit state after creating object: %w" err), ctx2)
      | (none, ctx2) => (.ok (), ctx2) := by
    simp [runtimeAdapter.StateCreate, runtimeAdapter.StorePut]
  have hget : ctx.state.getErr a.Receiver = none := by
    unfold Tree.GetActor at hact
    cases h : ctx.state.getErr a.Receiver with
    | none => rfl
    | some e => simp [h] at hact
  constructor
  · intro hhead hset
    rw [hrun, stateCommit_of_same_head a x _ _ _ act (by simpa using hact) hhead]
    have := GetActor_SetActor_self ctx.state a.Receiver { act with Head := x.hash obj } hget hset
    simp [Tree.SetActor, hset, runtimeAdapter.StorePut] at this ⊢
    exact this
  · intro hhead
    rw [hrun, stateCommit_of_changed_head a x _ _ _ act (by simpa using hact) hhead]
    exact ⟨rfl, rfl⟩

/-- Witness for C7 (amended): on a freshly created receiver `StateCreate` succeeds
and the head becomes the hash of the stored object. -/
theorem StateCreate_commits_on_empty_head_witness :
    (exampleAdapter.StateCreate exampleExternals [1] freshContext).1 = .ok () ∧
      (exampleAdapter.StateCreate exampleExternals [1] freshContext).2.state.GetActor
          exampleAdapter.Receiver =
        .ok (some { exampleActor with Head := sumHash [1] }) :=
  have h := (StateCreate_commits_on_empty_head exampleAdapter exampleExternals [1] freshContext
    { exampleActor with Head := exampleExternals.EmptyObjectCid } rfl).1 rfl rfl
  ⟨h.1, h.2.2⟩

end vmcontext

end Venus

namespace Venus

namespace consensus

/-- C2, counterexample.  At the genesis tipset (height `0`) with parent state root
`hash 7`, `RunStateTransition` returns the undefined root, which is not the parent
state root it was given. -/
theorem RunStateTransition_genesis_root_not_parent :
    (exampleExpected.RunStateTransition genesisTipSet (.hash 7)).1 = (Cid.Undef, [], none) ∧
      (exampleExpected.RunStateTransition genesisTipSet (.hash 7)).1.1 ≠ .hash 7 := by
  constructor
  · rfl
  · decide

/-- C2, amended.  For every tipset at height `0` and every parent state root,
`RunStateTransition` performs no transition: it returns the undefined root (not
the parent state root), no receipts and no error, and the processor is never invoked. -/
theorem RunStateTransition_genesis (c : Expected) (ts : TipSet) (parentStateRoot : Cid)
    (hgenesis : ts.EnsureHeight = 0) :
    (c.RunStateTransition ts parentStateRoot).1 = (Cid.Undef, [], none) ∧
      ∀ e ∈ (c.RunStateTransition ts parentStateRoot).2, e.isProcess = false := by
  unfold Expected.RunStateTransition
  cases c.LoadTipSetMessage ts with
  | error err => simp [Event.isProcess]
  | ok blockMessageInfo => simp [hgenesis, Event.isProcess]

/-- Witness for C2 (amended): the genesis tipset of the examples. -/
theorem RunStateTransition_genesis_witness :
    (exampleExpected.RunStateTransition genesisTipSet (.hash 7)).1 = (Cid.Undef, [], none) ∧
      ∀ e ∈ (exampleExpected.RunStateTransition genesisTipSet (.hash 7)).2, e.isProcess = false :=
  RunStateTransition_genesis exampleExpected genesisTipSet (.hash 7) rfl

/-- C9.  For a tipset at height greater than `0` whose messages load and whose
parent tipset resolves, `RunStateTransition` invokes the processor exactly once,
with the parent tipset, the tipset, the loaded per-block message lists and an
environment whose parent root is the given `parentStateRoot`.  If the processor
fails, the result is the undefined root, no receipts and the processor's error
wrapped (so non-nil); otherwise the result is exactly the processor's root and
receipts, with no error. -/
theorem RunStateTransition_invokes_processor_once (c : Expected) (ts : TipSet)
    (parentStateRoot : Cid) (blocks : List BlockMessagesInfo) (parent : TipSetKey) (pts : TipSet)
    (hheight : ts.EnsureHeight > 0)
    (hload : c.LoadTipSetMessage ts = .ok blocks)
    (hparents : ts.Parents = .ok parent)
    (hresolve : c.GetTipSet parent = .ok pts) :
    (c.vmOption ts parentStateRoot).PRoot = parentStateRoot ∧
    (c.RunStateTransition ts parentStateRoot).2.filter Event.isProcess =
      [.ProcessTipSet pts ts blocks (c.vmOption ts parentStateRoot)] ∧
    (∀ err, c.ProcessTipSet pts ts blocks (c.vmOption ts parentStateRoot) = .error err →
      (c.RunStateTransition ts parentStateRoot).1 =
        (Cid.Undef, [], some (.wrap err "error validating tipset"))) ∧
    (∀ root receipts,
      c.ProcessTipSet pts ts blocks (c.vmOption ts parentStateRoot) = .ok (root, receipts) →
      (c.RunStateTransition ts parentStateRoot).1 = (root, receipts, none)) := by
  refine ⟨rfl, ?_, ?_, ?_⟩
  · unfold Expected.RunStateTransition
    simp only [hload, hheight, hparents, hresolve, if_true]
    cases c.ProcessTipSet pts ts blocks (c.vmOption ts parentStateRoot) <;>
      simp [List.filter, Event.isProcess]
  · intro err herr
    unfold Expected.RunStateTransition
    simp only [hload, hheight, hparents, hresolve, if_true, herr]
  · intro root receipts hok
    unfold Expected.RunStateTransition
    simp only [hload, hheight, hparents, hresolve, if_true, hok]

/-- Witness for C9: the child of the genesis tipset is processed once and the
processor's root and receipts are returned as they are. -/
theorem RunStateTransition_invokes_processor_once_witness :
    (exampleExpected.RunStateTransition childTipSet (.hash 7)).2.filter Event.isProcess =
        [.ProcessTipSet genesisTipSet childTipSet exampleMessages
          (exampleExpected.vmOption childTipSet (.hash 7))] ∧
      (exampleExpected.RunStateTransition childTipSet (.hash 7)).1 =
        (.hash 42, [{ ExitCode := 0, ReturnValue := [], GasUsed := 3 }], none) :=
  have h := RunStateTransition_invokes_processor_once exampleExpected childTipSet (.hash 7)
    exampleMessages [.hash 1] genesisTipSet (by decide) rfl rfl rfl
  ⟨h.2.1, h.2.2.2 _ _ rfl⟩

end consensus

end Venus

namespace Venus

namespace consensus

theorem ticketVRFRandomness_eq_blend (tm : TicketMachine) (p : Primitives) (base : TipSetKey)
    (entry : BeaconEntry) (bSmokeHeight : Bool) (miner : Address) (epoch : ChainEpoch)
    (entropyBuf : List Nat) (asked : List TipSetKey)
    (h : tm.entropy p base bSmokeHeight miner = (.ok entropyBuf, asked)) :
    tm.ticketVRFRandomness p base entry bSmokeHeight miner epoch =
      (p.BlendEntropy .TicketProduction (p.Sum256 entry.Data) epoch entropyBuf, asked) := by
  simp [TicketMachine.ticketVRFRandomness, h]

theorem MakeTicket_ok_inv (tm : TicketMachine) (p : Primitives) (base : TipSetKey)
    (epoch : ChainEpoch) (miner : Address) (entry : BeaconEntry) (newPeriod : Bool)
    (worker : Address) (signer : Signer) (t : Ticket)
    (hmake : (tm.MakeTicket p base epoch miner entry newPeriod worker signer).1 = .ok t) :
    ∃ randomness vrfProof,
      (tm.ticketVRFRandomness p base entry newPeriod miner epoch).1 = .ok randomness ∧
      signer.SignBytes randomness worker = .ok vrfProof ∧ t.VRFProof = vrfProof.Data := by
  unfold TicketMachine.MakeTicket at hmake
  rcases hr : tm.ticketVRFRandomness p base entry newPeriod miner epoch with ⟨res, asked⟩
  rw [hr] at hmake
  cases res with
  | error err => simp at hmake
  | ok randomness =>
    cases hs : signer.SignBytes randomness worker with
    | error err => simp [hs] at hmake
    | ok vrfProof =>
      simp [hs] at hmake
      exact ⟨randomness, vrfProof, rfl, hs, by rw [← hmake]⟩

theorem MakeTicket_of_signed (tm : TicketMachine) (p : Primitives) (base : TipSetKey)
    (epoch : ChainEpoch) (miner : Address) (entry : BeaconEntry) (newPeriod : Bool)
    (worker : Address) (signer : Signer) (randomness : List Nat) (vrfProof : Signature)
    (hrand : (tm.ticketVRFRandomness p base entry newPeriod miner epoch).1 = .ok randomness)
    (hsign : signer.SignBytes randomness worker = .ok vrfProof) :
    tm.MakeTicket p base epoch miner entry newPeriod worker signer =
      (.ok { VRFProof := vrfProof.Data },
        (tm.ticketVRFRandomness p base entry newPeriod miner epoch).2) := by
  unfold TicketMachine.MakeTicket
  rcases hr : tm.ticketVRFRandomness p base entry newPeriod miner epoch with ⟨res, asked⟩
  rw [hr] at hrand
  simp only at hrand
  subst hrand
  simp [hsign]

theorem IsValidTicket_of_randomness (tm : TicketMachine) (p : Primitives) (base : TipSetKey)
    (entry : BeaconEntry) (bSmokeHeight : Bool) (epoch : ChainEpoch) (miner : Address)
    (randomness : List Nat)
    (hrand : (tm.ticketVRFRandomness p base entry bSmokeHeight miner epoch).1 = .ok randomness)
    (workerSigner : Address) (ticket : Ticket) :
    tm.IsValidTicket p base entry bSmokeHeight epoch miner workerSigner ticket =
      (p.ValidateBlsSignature randomness workerSigner ticket.VRFProof,
        (tm.ticketVRFRandomness p base entry bSmokeHeight miner epoch).2) := by
  unfold TicketMachine.IsValidTicket
  rcases hr : tm.ticketVRFRandomness p base entry bSmokeHeight miner epoch with ⟨res, asked⟩
  rw [hr] at hrand
  simp only at hrand
  subst hrand
  rfl

theorem ticket_of_failed_randomness (tm : TicketMachine) (p : Primitives) (base : TipSetKey)
    (entry : BeaconEntry) (flag : Bool) (epoch : ChainEpoch) (miner : Address) (err : Error)
    (hrand : (tm.ticketVRFRandomness p base entry flag miner epoch).1 = .error err) :
    (∀ worker signer, (tm.MakeTicket p base epoch miner entry flag worker signer).1 =
      .error (.wrap err "failed to generate ticket randomness")) ∧
    (∀ workerSigner ticket,
      (tm.IsValidTicket p base entry flag epoch miner workerSigner ticket).1 =
        some (.wrap err "failed to generate ticket randomness")) := by
  unfold TicketMachine.MakeTicket TicketMachine.IsValidTicket
  rcases hr : tm.ticketVRFRandomness p base entry flag miner epoch with ⟨res, asked⟩
  rw [hr] at hrand
  simp only at hrand
  subst hrand
  exact ⟨fun _ _ => rfl, fun _ _ => rfl⟩

/-- C3.  Ticket round trip.  `MakeTicket` and `IsValidTicket` derive the same
randomness from the same base, entry, flag, miner and epoch, the one computed by
`ticketVRFRandomness`.  (1) When that derivation gives `randomness` and the signer
signs it for the worker, `MakeTicket` returns the ticket whose proof is the
signature bytes.  (2) Whenever `MakeTicket` returns a ticket `t`, there are such a
randomness and signature; for every worker key and every ticket, `IsValidTicket` is
exactly the verification of that ticket's proof over this same randomness; and if
every signature the signer produces for the worker verifies under the worker's
key, `IsValidTicket` succeeds for `t`.  (3) When the derivation fails, `MakeTicket`
and `IsValidTicket` both fail with that error wrapped.  (4) Both consult the
tipset loader exactly as the derivation does. -/
theorem IsValidTicket_of_MakeTicket (tm : TicketMachine) (p : Primitives) (base : TipSetKey)
    (epoch : ChainEpoch) (miner : Address) (entry : BeaconEntry) (newPeriod : Bool)
    (worker : Address) (signer : Signer) :
    (∀ randomness vrfProof,
      (tm.ticketVRFRandomness p base entry newPeriod miner epoch).1 = .ok randomness →
      signer.SignBytes randomness worker = .ok vrfProof →
      (tm.MakeTicket p base epoch miner entry newPeriod worker signer).1 =
        .ok { VRFProof := vrfProof.Data }) ∧
    (∀ t, (tm.MakeTicket p base epoch miner entry newPeriod worker signer).1 = .ok t →
      ∃ randomness vrfProof,
        (tm.ticketVRFRandomness p base entry newPeriod miner epoch).1 = .ok randomness ∧
        signer.SignBytes randomness worker = .ok vrfProof ∧ t.VRFProof = vrfProof.Data ∧
        (∀ workerSigner ticket,
          (tm.IsValidTicket p base entry newPeriod epoch miner workerSigner ticket).1 =
            p.ValidateBlsSignature randomness workerSigner ticket.VRFProof) ∧
        ((∀ data sig, signer.SignBytes data worker = .ok sig →
            p.ValidateBlsSignature data worker sig.Data = none) →
          (tm.IsValidTicket p base entry newPeriod epoch miner worker t).1 = none)) ∧
    (∀ err, (tm.ticketVRFRandomness p base entry newPeriod miner epoch).1 = .error err →
      (tm.MakeTicket p base epoch miner entry newPeriod worker signer).1 =
        .error (.wrap err "failed to generate ticket randomness") ∧
      ∀ workerSigner ticket,
        (tm.IsValidTicket p base entry newPeriod epoch miner workerSigner ticket).1 =
          some (.wrap err "failed to generate ticket randomness")) ∧
    ((tm.MakeTicket p base epoch miner entry newPeriod worker signer).2 =
        (tm.ticketVRFRandomness p base entry newPeriod miner epoch).2 ∧
      ∀ workerSigner ticket,
        (tm.IsValidTicket p base entry newPeriod epoch miner workerSigner ticket).2 =
          (tm.ticketVRFRandomness p base entry newPeriod miner epoch).2) := by
  refine ⟨?_, ?_, ?_, ?_, ?_⟩
  · intro randomness vrfProof hrand hsign
    rw [MakeTicket_of_signed tm p base epoch miner entry newPeriod worker signer randomness
      vrfProof hrand hsign]
  · intro t hmake
    obtain ⟨randomness, vrfProof, hr, hs, ht⟩ :=
      MakeTicket_ok_inv tm p base epoch miner entry newPeriod worker signer t hmake
    have hvalid : ∀ workerSigner ticket,
        (tm.IsValidTicket p base entry newPeriod epoch miner workerSigner ticket).1 =
          p.ValidateBlsSignature randomness workerSigner ticket.VRFProof := by
      intro workerSigner ticket
      rw [IsValidTicket_of_randomness tm p base entry newPeriod epoch miner randomness hr]
    refine ⟨randomness, vrfProof, hr, hs, ht, hvalid, ?_⟩
    intro hverify
    rw [hvalid, ht]
    exact hverify randomness vrfProof hs
  · intro err herr
    have h := ticket_of_failed_randomness tm p base entry newPeriod epoch miner err herr
    exact ⟨h.1 worker signer, h.2⟩
  · unfold TicketMachine.MakeTicket
    rcases tm.ticketVRFRandomness p base entry newPeriod miner epoch with ⟨res, asked⟩
    cases res with
    | error err => rfl
    | ok randomness => cases hs : signer.SignBytes randomness worker <;> simp [hs]
  · intro workerSigner ticket
    unfold TicketMachine.IsValidTicket
    rcases tm.ticketVRFRandomness p base entry newPeriod miner epoch with ⟨res, asked⟩
    cases res <;> rfl

/-- Witness for C3: with the toy primitives the ticket for worker `8` at a period
boundary is produced, it validates under worker `8`, and a ticket with other proof
bytes is rejected by the verification over the same randomness. -/
theorem IsValidTicket_of_MakeTicket_witness :
    (exampleTicketMachine.MakeTicket examplePrimitives [.hash 1] 6 5 exampleEntry true 8
        exampleSigner).1 = .ok { VRFProof := [8, 1, 30, 6, 5, 9, 9] } ∧
      (exampleTicketMachine.IsValidTicket examplePrimitives [.hash 1] exampleEntry true 6 5 8
        { VRFProof := [8, 1, 30, 6, 5, 9, 9] }).1 = none ∧
      (exampleTicketMachine.IsValidTicket examplePrimitives [.hash 1] exampleEntry true 6 5 8
        { VRFProof := [8, 0] }).1 = some (.msg "bls signature failed to verify") := by
  have h := IsValidTicket_of_MakeTicket exampleTicketMachine examplePrimitives [.hash 1] 6 5
    exampleEntry true 8 exampleSigner
  have hmake := h.1 [1, 30, 6, 5, 9, 9] { SigType := 2, Data := [8, 1, 30, 6, 5, 9, 9] } rfl rfl
  obtain ⟨randomness, vrfProof, hr, _, _, hder, hval⟩ := h.2.1 _ hmake
  have hrand : randomness = [1, 30, 6, 5, 9, 9] := by
    have hr2 : (Except.ok [1, 30, 6, 5, 9, 9] : Except Error (List Nat)) = .ok randomness := hr
    injection hr2 with hr3
    exact hr3.symm
  refine ⟨hmake, hval ?_, ?_⟩
  · intro data sig hs
    simp only [exampleSigner, Except.ok.injEq] at hs
    subst hs
    simp [examplePrimitives]
  · rw [hder, hrand]
    rfl

/-- C10.  The ticket randomness is the blend, under the ticket-production tag, of
the hash of the beacon entry's data as seed, the epoch, and an entropy buffer.
When the flag is false the tipset loader is not consulted and the entropy is the
encoded miner address alone; when the flag is true and the base tipset loads, the
entropy is the encoded miner address followed by the proof bytes of the base
tipset's minimum ticket, and the loader was asked for the base key only.  Every
ticket `MakeTicket` returns has as proof exactly the bytes of the signer's
signature over that randomness, and `MakeTicket` does return that ticket whenever
the derivation gives a randomness and the signer signs it.  When the miner address
cannot be encoded, or the flag is true and the base tipset does not load, there is
no randomness: the derivation fails with that error. -/
theorem ticketVRFRandomness_entropy (tm : TicketMachine) (p : Primitives) (base : TipSetKey)
    (entry : BeaconEntry) (miner : Address) (epoch : ChainEpoch) :
    (tm.ticketVRFRandomness p base entry false miner epoch).2 = [] ∧
    (∀ encoded, p.MarshalCBOR miner = .ok encoded →
      tm.ticketVRFRandomness p base entry false miner epoch =
        (p.BlendEntropy .TicketProduction (p.Sum256 entry.Data) epoch encoded, [])) ∧
    (∀ encoded ts, p.MarshalCBOR miner = .ok encoded → tm.tipsetLoader base = .ok ts →
      tm.ticketVRFRandomness p base entry true miner epoch =
        (p.BlendEntropy .TicketProduction (p.Sum256 entry.Data) epoch
          (encoded ++ ts.MinTicket.VRFProof), [base])) ∧
    (∀ newPeriod worker signer t,
      (tm.MakeTicket p base epoch miner entry newPeriod worker signer).1 = .ok t →
      ∃ randomness vrfProof,
        (tm.ticketVRFRandomness p base entry newPeriod miner epoch).1 = .ok randomness ∧
        signer.SignBytes randomness worker = .ok vrfProof ∧ t.VRFProof = vrfProof.Data) ∧
    (∀ newPeriod worker signer randomness vrfProof,
      (tm.ticketVRFRandomness p base entry newPeriod miner epoch).1 = .ok randomness →
      signer.SignBytes randomness worker = .ok vrfProof →
      tm.MakeTicket p base epoch miner entry newPeriod worker signer =
        (.ok { VRFProof := vrfProof.Data },
          (tm.ticketVRFRandomness p base entry newPeriod miner epoch).2)) ∧
    (∀ err flag, p.MarshalCBOR miner = .error err →
      tm.ticketVRFRandomness p base entry flag miner epoch =
        (.error (.wrap err "failed to encode miner entropy"), [])) ∧
    (∀ encoded err, p.MarshalCBOR miner = .ok encoded → tm.tipsetLoader base = .error err →
      tm.ticketVRFRandomness p base entry true miner epoch = (.error err, [base])) := by
  refine ⟨?_, ?_, ?_, ?_, ?_, ?_, ?_⟩
  · unfold TicketMachine.ticketVRFRandomness TicketMachine.entropy
    cases p.MarshalCBOR miner <;> simp
  · intro encoded henc
    exact ticketVRFRandomness_eq_blend tm p base entry false miner epoch encoded []
      (by simp [TicketMachine.entropy, henc])
  · intro encoded ts henc hts
    exact ticketVRFRandomness_eq_blend tm p base entry true miner epoch _ [base]
      (by simp [TicketMachine.entropy, henc, hts])
  · intro newPeriod worker signer t hmake
    exact MakeTicket_ok_inv tm p base epoch miner entry newPeriod worker signer t hmake
  · intro newPeriod worker signer randomness vrfProof hrand hsign
    exact MakeTicket_of_signed tm p base epoch miner entry newPeriod worker signer randomness
      vrfProof hrand hsign
  · intro err flag henc
    simp [TicketMachine.ticketVRFRandomness, TicketMachine.entropy, henc]
  · intro encoded err henc hts
    simp [TicketMachine.ticketVRFRandomness, TicketMachine.entropy, henc, hts]

/-- Witness for C10: the randomness of the examples at a period boundary, with the
loader asked for the base key once, and the ticket `MakeTicket` returns for worker
`8`, whose proof is the signer's signature over that randomness. -/
theorem ticketVRFRandomness_entropy_witness :
    exampleTicketMachine.ticketVRFRandomness examplePrimitives [.hash 1] exampleEntry true 5 6 =
        (.ok [1, 30, 6, 5, 9, 9], [[.hash 1]]) ∧
      exampleTicketMachine.MakeTicket examplePrimitives [.hash 1] 6 5 exampleEntry true 8
        exampleSigner = (.ok { VRFProof := [8, 1, 30, 6, 5, 9, 9] }, [[.hash 1]]) :=
  ⟨(ticketVRFRandomness_entropy exampleTicketMachine examplePrimitives [.hash 1] exampleEntry
      5 6).2.2.1 [5] genesisTipSet rfl rfl,
    (ticketVRFRandomness_entropy exampleTicketMachine examplePrimitives [.hash 1] exampleEntry
      5 6).2.2.2.2.1 true 8 exampleSigner [1, 30, 6, 5, 9, 9]
      { SigType := 2, Data := [8, 1, 30, 6, 5, 9, 9] } rfl rfl⟩

end consensus

end Venus

namespace Venus

namespace consensus

/-- C11.  For every tipset, of any height, whose messages fail to load,
`RunStateTransition` aborts the round with no partial result: the only call it
makes on its collaborators is the failed `LoadTipSetMessage` (the parent is not
resolved and the processor is not invoked), it returns the undefined root and no
receipts, and it swallows the load error: the error it returns is nil. -/
theorem RunStateTransition_swallows_load_error (c : Expected) (ts : TipSet)
    (parentStateRoot : Cid) (err : Error)
    (hload : c.LoadTipSetMessage ts = .error err) :
    (c.RunStateTransition ts parentStateRoot).1 = (Cid.Undef, [], none) ∧
      (c.RunStateTransition ts parentStateRoot).2 = [.LoadTipSetMessage ts] ∧
      ∀ e ∈ (c.RunStateTransition ts parentStateRoot).2, e.isProcess = false := by
  unfold Expected.RunStateTransition
  simp [hload, Event.isProcess]

/-- Witness for C11: a tipset at height `1` whose messages fail to load. -/
theorem RunStateTransition_swallows_load_error_witness :
    (failingLoadExpected.RunStateTransition childTipSet (.hash 7)).1 = (Cid.Undef, [], none) ∧
      (failingLoadExpected.RunStateTransition childTipSet (.hash 7)).2 =
        [.LoadTipSetMessage childTipSet] :=
  have h := RunStateTransition_swallows_load_error failingLoadExpected childTipSet (.hash 7)
    (.msg "failed to load messages") rfl
  ⟨h.1, h.2.1⟩

end consensus

end Venus

namespace Venus

namespace vmcontext

theorem stateCommit_allowSideEffects (a : runtimeAdapter) (x : Externals) (oldh newh : Cid)
    (ctx : invocationContext) :
    (a.stateCommit x oldh newh ctx).2.allowSideEffects = ctx.allowSideEffects := by
  unfold runtimeAdapter.stateCommit
  rcases ctx.state.GetActor a.Receiver with err | _ | act
  · rfl
  · rfl
  · by_cases h : act.Head ≠ oldh
    · simp [h]
    · simp only [h, if_false]
      unfold Tree.SetActor
      cases ctx.state.setErr a.Receiver <;> rfl

theorem StateCreate_allowSideEffects (a : runtimeAdapter) (x : Externals) (obj : Obj)
    (ctx : invocationContext) :
    (a.StateCreate x obj ctx).2.allowSideEffects = ctx.allowSideEffects := by
  have h := stateCommit_allowSideEffects a x x.EmptyObjectCid (x.hash obj) (a.StorePut x obj ctx).2
  unfold runtimeAdapter.StateCreate
  simp only
  rcases hc : a.stateCommit x x.EmptyObjectCid (a.StorePut x obj ctx).1 (a.StorePut x obj ctx).2
    with ⟨res, ctx2⟩
  have h2 : ctx2.allowSideEffects = ctx.allowSideEffects := by
    have : (a.StorePut x obj ctx).1 = x.hash obj := rfl
    rw [this] at hc
    rw [hc] at h
    exact h
  cases res <;> exact h2

/-- Whenever `StateTransaction` returns normally the flag is true afterwards,
whatever it was before the call and whatever the mutator did. -/
theorem StateTransaction_enables_on_return (a : runtimeAdapter) (x : Externals)
    (obj : Option Obj) (f : Obj → invocationContext → Result Obj) (ctx : invocationContext)
    (hret : (a.StateTransaction x obj f ctx).1 = .ok ()) :
    (a.StateTransaction x obj f ctx).2.allowSideEffects = true := by
  unfold runtimeAdapter.StateTransaction at hret ⊢
  cases obj with
  | none => simp [runtimeAdapter.Abortf] at hret
  | some o =>
    simp only at hret ⊢
    rcases hact : ctx.state.GetActor a.Receiver with err | _ | act
    · simp [hact, runtimeAdapter.Abortf] at hret
    · simp [hact, runtimeAdapter.Abortf] at hret
    · simp only [hact] at hret ⊢
      rcases hf : f (a.StoreGet act.Head o ctx).2 { ctx with allowSideEffects := false }
        with ⟨res, ctx1⟩
      simp only [hf] at hret ⊢
      cases res with
      | error p => simp at hret
      | ok mutated =>
        simp only at hret ⊢
        have h := stateCommit_allowSideEffects a x act.Head
          (a.StorePut x mutated { ctx1 with allowSideEffects := true }).1
          (a.StorePut x mutated { ctx1 with allowSideEffects := true }).2
        rcases hc : a.stateCommit x act.Head
          (a.StorePut x mutated { ctx1 with allowSideEffects := true }).1
          (a.StorePut x mutated { ctx1 with allowSideEffects := true }).2 with ⟨res2, ctx4⟩
        rw [hc] at h
        cases res2 with
        | none => exact h
        | some e => exact h

/-- An operation other than a `StateTransaction` call leaves the flag as it was. -/
theorem Op.run_allowSideEffects (a : runtimeAdapter) (x : Externals) (op : Op) (o : Obj)
    (ctx : invocationContext) (hop : op.isTransaction = false) :
    (op.run a x o ctx).2.allowSideEffects = ctx.allowSideEffects := by
  cases op with
  | StorePut obj => rfl
  | StoreGet c => rfl
  | StateCreate obj =>
    have h := StateCreate_allowSideEffects a x obj ctx
    rcases hc : a.StateCreate x obj ctx with ⟨res, ctx1⟩
    rw [hc] at h
    cases res <;> simpa [Op.run, hc] using h
  | StateReadonly =>
    unfold Op.run runtimeAdapter.StateReadonly
    rcases ctx.state.GetActor a.Receiver with err | _ | act <;> rfl
  | Abortf code text => rfl
  | StateTransaction obj f => simp [Op.isTransaction] at hop

/-- While a sequence of operations with no `StateTransaction` call among them runs,
the flag keeps the value it had at the start at every point of the run. -/
theorem runOps_flag_constant (a : runtimeAdapter) (x : Externals) (ops : List Op) :
    ∀ (o : Obj) (ctx : invocationContext), (∀ op ∈ ops, op.isTransaction = false) →
      ∀ b ∈ (runOps a x ops o ctx).2, b = ctx.allowSideEffects := by
  induction ops with
  | nil =>
    intro o ctx _ b hb
    simpa [runOps] using hb
  | cons op rest ih =>
    intro o ctx hops b hb
    have hkeep := Op.run_allowSideEffects a x op o ctx (hops op (List.mem_cons_self _ _))
    unfold runOps at hb
    rcases hrun : op.run a x o ctx with ⟨res, ctx1⟩
    rw [hrun] at hb hkeep
    cases res with
    | error p => simpa using hb
    | ok o1 =>
      simp only [List.mem_cons] at hb
      rcases hb with hb | hb
      · exact hb
      · rw [ih o1 ctx1 (fun op2 h2 => hops op2 (List.mem_cons_of_mem _ h2)) b hb]
        exact hkeep

/-- C12, the divergence.  The receiver's transaction runs a mutator whose body is a
`StateTransaction` call of its own followed by a `StorePut`.  The mutator starts
with the flag false, but the nested call sets the flag to true when it returns, so
at the next point of the still-running outer mutator (before its `StorePut`, and
when it ends) the flag is true.  The outer transaction returns normally, with the
flag true. -/
theorem StateTransaction_nested_enables_sends :
    (runOps exampleAdapter exampleExternals nestingOps
        (exampleAdapter.StoreGet exampleActor.Head [0] exampleContext).2
        { exampleContext with allowSideEffects := false }).2 = [false, true, true] ∧
      (exampleAdapter.StateTransaction exampleExternals (some [0])
        (mutatorOf exampleAdapter exampleExternals nestingOps) exampleContext).1 = .ok () ∧
      (exampleAdapter.StateTransaction exampleExternals (some [0])
        (mutatorOf exampleAdapter exampleExternals nestingOps)
        exampleContext).2.allowSideEffects = true := by
  refine ⟨rfl, rfl, rfl⟩

end vmcontext

end Venus


namespace Venus

namespace blockstoreutil

theorem setStore_same (h : Stores) (r : Ref) (s : Blockstore) : setStore h r s r = s := by
  simp [setStore]

theorem setStore_other (h : Stores) (r : Ref) (s : Blockstore) (k : Ref) (hk : k ≠ r) :
    setStore h r s k = h k := by
  simp [setStore, hk]

theorem Blockstore.Get_snd (s : Blockstore) (c : Cid) : (s.Get c).2 = s.logged (.Get c) := by
  unfold Blockstore.Get
  cases s.readErr c with
  | some e => rfl
  | none => cases s.blocks c <;> rfl

theorem Blockstore.Get_fst_logged (s : Blockstore) (k : Call) (c : Cid) :
    ((s.logged k).Get c).1 = (s.Get c).1 := by
  unfold Blockstore.Get Blockstore.logged
  cases s.readErr c with
  | some e => rfl
  | none => cases s.blocks c <;> rfl

/-- After the overlay has answered a `Get`, the base answers a `Get` with the same
value as before, also when the overlay is the base. -/
theorem Get_fst_after_overlay (h : Stores) (w r : Ref) (c k : Cid) :
    ((setStore h w ((h w).Get c).2 r).Get k).1 = ((h r).Get k).1 := by
  by_cases hr : r = w
  · subst hr
    rw [setStore_same, Blockstore.Get_snd, Blockstore.Get_fst_logged]
  · rw [setStore_other h w _ r hr]

/-- C4.  `BufferedBS.Get(c)` checks the overlay first.  (1) When the overlay's `Get`
returns a block, that block is returned and only the overlay has received a call:
a base that is another store is not consulted, whatever it holds.  (2) When the
overlay's `Get` reports `ErrNotFound`, the base is asked next and the result is
exactly the result of the base's `Get`.  (3) When the overlay's `Get` fails with any
other error, that error is returned and the base is not consulted.  (4) A key held
by the base only is served from the base.  (5) A key held by the overlay shadows
the base. -/
theorem BufferedBS_Get_overlay_then_base (bs : BufferedBS) (c : Cid) (h : Stores) :
    (∀ out w1, (h bs.write).Get c = (.ok out, w1) →
      bs.Get c h = (.ok out, setStore h bs.write w1) ∧
      (bs.read ≠ bs.write → (bs.Get c h).2 bs.read = h bs.read)) ∧
    (∀ w1, (h bs.write).Get c = (.error .ErrNotFound, w1) →
      (bs.Get c h).1 = ((h bs.read).Get c).1 ∧
      (bs.Get c h).2 = setStore (setStore h bs.write w1) bs.read
        (((setStore h bs.write w1) bs.read).Get c).2 ∧
      (bs.read ≠ bs.write →
        (bs.Get c h).2 = setStore (setStore h bs.write w1) bs.read ((h bs.read).Get c).2)) ∧
    (∀ err w1, (h bs.write).Get c = (.error err, w1) → err ≠ .ErrNotFound →
      bs.Get c h = (.error err, setStore h bs.write w1) ∧
      (bs.read ≠ bs.write → (bs.Get c h).2 bs.read = h bs.read)) ∧
    (∀ blk, (h bs.write).readErr c = none → (h bs.write).blocks c = none →
      (h bs.read).readErr c = none → (h bs.read).blocks c = some blk →
      (bs.Get c h).1 = .ok blk ∧
      ((bs.Get c h).2 bs.read).calls = (h bs.read).calls ++ [.Get c]) ∧
    (∀ blk, (h bs.write).readErr c = none → (h bs.write).blocks c = some blk →
      (bs.Get c h).1 = .ok blk ∧
      (bs.Get c h).2 = setStore h bs.write ((h bs.write).logged (.Get c)) ∧
      (bs.read ≠ bs.write → (bs.Get c h).2 bs.read = h bs.read)) := by
  refine ⟨?_, ?_, ?_, ?_, ?_⟩
  · intro out w1 hw
    have hrun : bs.Get c h = (.ok out, setStore h bs.write w1) := by
      simp [BufferedBS.Get, hw]
    exact ⟨hrun, fun hne => by rw [hrun]; exact setStore_other h _ _ _ hne⟩
  · intro w1 hw
    have hw1 : w1 = ((h bs.write).Get c).2 := by rw [hw]
    have hrun : bs.Get c h = ((((setStore h bs.write w1) bs.read).Get c).1,
        setStore (setStore h bs.write w1) bs.read
          (((setStore h bs.write w1) bs.read).Get c).2) := by
      simp [BufferedBS.Get, hw]
    refine ⟨?_, ?_, ?_⟩
    · rw [hrun, hw1]
      exact Get_fst_after_overlay h bs.write bs.read c c
    · rw [hrun]
    · intro hne
      rw [hrun, setStore_other h _ _ _ hne]
  · intro err w1 hw hne
    have hrun : bs.Get c h = (.error err, setStore h bs.write w1) := by
      simp [BufferedBS.Get, hw, hne]
    exact ⟨hrun, fun hd => by rw [hrun]; exact setStore_other h _ _ _ hd⟩
  · intro blk hwe hwb hre hrb
    have hne : bs.read ≠ bs.write := by
      intro heq
      rw [heq, hwb] at hrb
      cases hrb
    simp [BufferedBS.Get, Blockstore.Get, Blockstore.logged, hwe, hwb, hre, hrb, setStore, hne]
  · intro blk hwe hwb
    have hrun : bs.Get c h = (.ok blk, setStore h bs.write ((h bs.write).logged (.Get c))) := by
      simp [BufferedBS.Get, Blockstore.Get, hwe, hwb]
    refine ⟨by rw [hrun], by rw [hrun], ?_⟩
    intro hne
    rw [hrun]
    exact setStore_other h _ _ _ hne

/-- Witness for C4: a key held by the base only is served from the base, and a
failing overlay hides the base without the base being consulted. -/
theorem BufferedBS_Get_overlay_then_base_witness :
    (layered.Get (.hash 1) baseOnly).1 = .ok blockOne ∧
      layered.Get (.hash 1) brokenOverlay =
        (.error (.msg "input/output error"),
          setStore brokenOverlay layered.write (brokenStore.logged (.Get (.hash 1)))) ∧
      (layered.Get (.hash 1) brokenOverlay).2 layered.read = brokenOverlay layered.read :=
  ⟨((BufferedBS_Get_overlay_then_base layered (.hash 1) baseOnly).2.2.2.1 blockOne
      rfl rfl rfl rfl).1,
    ((BufferedBS_Get_overlay_then_base layered (.hash 1) brokenOverlay).2.2.1
      (.msg "input/output error") (brokenStore.logged (.Get (.hash 1))) rfl (by decide)).1,
    ((BufferedBS_Get_overlay_then_base layered (.hash 1) brokenOverlay).2.2.1
      (.msg "input/output error") (brokenStore.logged (.Get (.hash 1))) rfl (by decide)).2
      (by decide)⟩

/-- The store behind `r` after the store behind `w` has logged a call: same
contents and failures as before, also when `r` is `w`. -/
theorem content_after_call (h : Stores) (w r : Ref) (k : Call) :
    (setStore h w ((h w).logged k) r).blocks = (h r).blocks ∧
    (setStore h w ((h w).logged k) r).readErr = (h r).readErr ∧
    (setStore h w ((h w).logged k) r).writeErr = (h r).writeErr ∧
    (setStore h w ((h w).logged k) r).errSize = (h r).errSize := by
  by_cases hr : r = w
  · subst hr
    rw [setStore_same]
    exact ⟨rfl, rfl, rfl, rfl⟩
  · rw [setStore_other h w _ r hr]
    exact ⟨rfl, rfl, rfl, rfl⟩

theorem BufferedBS.Put_of_has (bs : BufferedBS) (blk : Block) (h : Stores) (held : Block)
    (he : (h bs.read).readErr blk.Cid = none) (hb : (h bs.read).blocks blk.Cid = some held) :
    bs.Put blk h = (none, setStore h bs.read ((h bs.read).logged (.Has blk.Cid))) := by
  simp [BufferedBS.Put, Blockstore.Has, he, hb]

theorem BufferedBS.Put_of_error (bs : BufferedBS) (blk : Block) (h : Stores) (err : Error)
    (he : (h bs.read).readErr blk.Cid = some err) :
    bs.Put blk h = (some err, setStore h bs.read ((h bs.read).logged (.Has blk.Cid))) := by
  simp [BufferedBS.Put, Blockstore.Has, he]

theorem BufferedBS.Put_of_absent (bs : BufferedBS) (blk : Block) (h : Stores)
    (he : (h bs.read).readErr blk.Cid = none) (hb : (h bs.read).blocks blk.Cid = none) :
    bs.Put blk h =
      (((setStore h bs.read ((h bs.read).logged (.Has blk.Cid)) bs.write).Put blk).1,
        setStore (setStore h bs.read ((h bs.read).logged (.Has blk.Cid))) bs.write
          ((setStore h bs.read ((h bs.read).logged (.Has blk.Cid)) bs.write).Put blk).2) := by
  simp [BufferedBS.Put, Blockstore.Has, he, hb]

theorem Blockstore.Put_accepted (s : Blockstore) (blk : Block)
    (hw : s.writeErr blk.Cid = none) :
    (s.Put blk).1 = none ∧ (s.Put blk).2.blocks blk.Cid = some blk ∧
      (s.Put blk).2.readErr = s.readErr := by
  simp [Blockstore.Put, Blockstore.store, Blockstore.logged, hw]

theorem BufferedBS.Get_of_overlay_holds (bs : BufferedBS) (c : Cid) (h : Stores) (blk : Block)
    (hwe : (h bs.write).readErr c = none) (hwb : (h bs.write).blocks c = some blk) :
    (bs.Get c h).1 = .ok blk := by
  simp [BufferedBS.Get, Blockstore.Get, hwe, hwb]

/-- C5, counterexample.  The buffered store is built with buffering disabled
(`LOTUS_DISABLE_VM_BUF` set), so its overlay is its base.  The base is empty; `Put`
of `blockTwo` succeeds and the block is written to the base. -/
theorem BufferedBS_Put_writes_base_when_unbuffered :
    unbuffered.write = unbuffered.read ∧
      (allEmpty unbuffered.read).blocks blockTwo.Cid = none ∧
      (unbuffered.Put blockTwo allEmpty).1 = none ∧
      ((unbuffered.Put blockTwo allEmpty).2 unbuffered.read).blocks blockTwo.Cid =
        some blockTwo ∧
      ((unbuffered.Put blockTwo allEmpty).2 unbuffered.read).calls =
        [.Has blockTwo.Cid, .Put blockTwo] := by
  refine ⟨by decide, rfl, ?_, ?_, ?_⟩ <;> rfl

/-- C5, amended.  (1) When the base already has the block's key, `Put` returns
success and nothing is written: the only effect is the `Has` lookup on the base.
(2) When the base's `Has` lookup fails, that error is returned and nothing is
written.  (3) When the base does not have the key, the block is handed to the
overlay's `Put`, whose result is returned; if the overlay accepts the write, `Put`
succeeds, the overlay holds the block and, the overlay's lookup of that key being
healthy, a later `Get` of the key returns it.  (4) When the overlay is a store
distinct from the base, `Put` never writes to the base: the base holds the same
blocks afterwards and has received the `Has` lookup only.  (5) No store other than
the base and the overlay is touched. -/
theorem BufferedBS_Put_writes_overlay_only (bs : BufferedBS) (blk : Block) (h : Stores) :
    (∀ held, (h bs.read).readErr blk.Cid = none → (h bs.read).blocks blk.Cid = some held →
      bs.Put blk h = (none, setStore h bs.read ((h bs.read).logged (.Has blk.Cid)))) ∧
    (∀ err, (h bs.read).readErr blk.Cid = some err →
      bs.Put blk h = (some err, setStore h bs.read ((h bs.read).logged (.Has blk.Cid)))) ∧
    ((h bs.read).readErr blk.Cid = none → (h bs.read).blocks blk.Cid = none →
      bs.Put blk h =
        (((setStore h bs.read ((h bs.read).logged (.Has blk.Cid)) bs.write).Put blk).1,
          setStore (setStore h bs.read ((h bs.read).logged (.Has blk.Cid))) bs.write
            ((setStore h bs.read ((h bs.read).logged (.Has blk.Cid)) bs.write).Put blk).2) ∧
      ((h bs.write).writeErr blk.Cid = none →
        (bs.Put blk h).1 = none ∧
        ((bs.Put blk h).2 bs.write).blocks blk.Cid = some blk ∧
        ((h bs.write).readErr blk.Cid = none →
          (bs.Get blk.Cid (bs.Put blk h).2).1 = .ok blk))) ∧
    (bs.read ≠ bs.write →
      (bs.Put blk h).2 bs.read = (h bs.read).logged (.Has blk.Cid) ∧
      ((bs.Put blk h).2 bs.read).blocks = (h bs.read).blocks ∧
      ((bs.Put blk h).2 bs.read).calls = (h bs.read).calls ++ [.Has blk.Cid]) ∧
    (∀ k, k ≠ bs.read → k ≠ bs.write → (bs.Put blk h).2 k = h k) := by
  have hshape : (bs.Put blk h).2 = setStore h bs.read ((h bs.read).logged (.Has blk.Cid)) ∨
      (bs.Put blk h).2 =
        setStore (setStore h bs.read ((h bs.read).logged (.Has blk.Cid))) bs.write
          ((setStore h bs.read ((h bs.read).logged (.Has blk.Cid)) bs.write).Put blk).2 := by
    cases he : (h bs.read).readErr blk.Cid with
    | some err => left; rw [BufferedBS.Put_of_error bs blk h err he]
    | none =>
      cases hb : (h bs.read).blocks blk.Cid with
      | some held => left; rw [BufferedBS.Put_of_has bs blk h held he hb]
      | none => right; rw [BufferedBS.Put_of_absent bs blk h he hb]
  refine ⟨?_, ?_, ?_, ?_, ?_⟩
  · intro held he hb
    exact BufferedBS.Put_of_has bs blk h held he hb
  · intro err he
    exact BufferedBS.Put_of_error bs blk h err he
  · intro he hb
    have hrun := BufferedBS.Put_of_absent bs blk h he hb
    refine ⟨hrun, ?_⟩
    intro hw
    have hc := content_after_call h bs.read bs.write (.Has blk.Cid)
    have hw1 : (setStore h bs.read ((h bs.read).logged (.Has blk.Cid)) bs.write).writeErr
        blk.Cid = none := by rw [hc.2.2.1]; exact hw
    have hp := Blockstore.Put_accepted
      (setStore h bs.read ((h bs.read).logged (.Has blk.Cid)) bs.write) blk hw1
    refine ⟨?_, ?_, ?_⟩
    · rw [hrun]
      exact hp.1
    · rw [hrun]
      show (setStore _ bs.write _ bs.write).blocks blk.Cid = some blk
      rw [setStore_same]
      exact hp.2.1
    · intro hr
      have hr1 : (setStore h bs.read ((h bs.read).logged (.Has blk.Cid)) bs.write).readErr
          blk.Cid = none := by rw [hc.2.1]; exact hr
      rw [hrun]
      apply BufferedBS.Get_of_overlay_holds
      · show (setStore _ bs.write _ bs.write).readErr blk.Cid = none
        rw [setStore_same, hp.2.2]
        exact hr1
      · show (setStore _ bs.write _ bs.write).blocks blk.Cid = some blk
        rw [setStore_same]
        exact hp.2.1
  · intro hne
    have hstore : (bs.Put blk h).2 bs.read = (h bs.read).logged (.Has blk.Cid) := by
      rcases hshape with hs | hs
      · rw [hs, setStore_same]
      · rw [hs, setStore_other _ _ _ _ hne, setStore_same]
    rw [hstore]
    exact ⟨rfl, rfl, rfl⟩
  · intro k hkr hkw
    rcases hshape with hs | hs
    · rw [hs, setStore_other _ _ _ _ hkr]
    · rw [hs, setStore_other _ _ _ _ hkw, setStore_other _ _ _ _ hkr]

/-- Witness for C5 (amended): putting `blockTwo` into a store whose base holds only
`blockOne` lands in the overlay, a later `Get` finds it, and the base, a distinct
store, holds the same blocks as before. -/
theorem BufferedBS_Put_writes_overlay_only_witness :
    (layered.Put blockTwo baseOnly).1 = none ∧
      ((layered.Put blockTwo baseOnly).2 layered.write).blocks blockTwo.Cid = some blockTwo ∧
      (layered.Get blockTwo.Cid (layered.Put blockTwo baseOnly).2).1 = .ok blockTwo ∧
      ((layered.Put blockTwo baseOnly).2 layered.read).blocks = (baseOnly layered.read).blocks :=
  have h := BufferedBS_Put_writes_overlay_only layered blockTwo baseOnly
  ⟨((h.2.2.1 rfl rfl).2 rfl).1, ((h.2.2.1 rfl rfl).2 rfl).2.1,
    ((h.2.2.1 rfl rfl).2 rfl).2.2 rfl, (h.2.2.2.1 (by decide)).2.1⟩

theorem Blockstore.storeAll_calls (blks : List Block) :
    ∀ s : Blockstore, (s.storeAll blks).2.calls = s.calls := by
  induction blks with
  | nil => intro s; rfl
  | cons hd tl ih =>
    intro s
    unfold Blockstore.storeAll Blockstore.store
    cases s.writeErr hd.Cid with
    | some e => rfl
    | none => exact ih _

theorem Blockstore.storeAll_healthy (blks : List Block) :
    ∀ s : Blockstore, (∀ c, s.writeErr c = none) →
      (s.storeAll blks).1 = none ∧
      (∀ c, (∀ b ∈ blks, b.Cid ≠ c) → (s.storeAll blks).2.blocks c = s.blocks c) ∧
      (∀ blk ∈ blks, ∃ b ∈ blks, b.Cid = blk.Cid ∧ (s.storeAll blks).2.blocks blk.Cid = some b) := by
  induction blks with
  | nil =>
    intro s _
    simp [Blockstore.storeAll]
  | cons hd tl ih =>
    intro s hs
    have hstore : s.store hd =
        (none, { s with blocks := fun c => if c = hd.Cid then some hd else s.blocks c }) := by
      simp [Blockstore.store, hs]
    have hs1 : ∀ c, ({ s with blocks := fun c => if c = hd.Cid then some hd else s.blocks c } :
        Blockstore).writeErr c = none := hs
    obtain ⟨h1, h2, h3⟩ := ih _ hs1
    have hall : s.storeAll (hd :: tl) =
        ({ s with blocks := fun c => if c = hd.Cid then some hd else s.blocks c } :
          Blockstore).storeAll tl := by
      simp [Blockstore.storeAll, hstore]
    rw [hall]
    refine ⟨h1, ?_, ?_⟩
    · intro c hc
      rw [h2 c (fun b hb => hc b (List.mem_cons_of_mem _ hb))]
      have : c ≠ hd.Cid := fun h => hc hd (List.mem_cons_self _ _) h.symm
      simp [this]
    · intro blk hblk
      by_cases hin : ∃ b ∈ tl, b.Cid = blk.Cid
      · obtain ⟨b, hb, hbc⟩ := hin
        obtain ⟨b2, hb2, hb2c, hb2s⟩ := h3 b hb
        exact ⟨b2, List.mem_cons_of_mem _ hb2, by rw [hb2c, hbc], by rw [← hbc]; exact hb2s⟩
      · have hnot : ∀ b ∈ tl, b.Cid ≠ blk.Cid := fun b hb hbc => hin ⟨b, hb, hbc⟩
        have hhd : blk.Cid = hd.Cid := by
          rcases List.mem_cons.mp hblk with h | h
          · rw [h]
          · exact absurd rfl (hnot blk h)
        refine ⟨hd, List.mem_cons_self _ _, hhd.symm, ?_⟩
        rw [h2 blk.Cid hnot]
        simp [hhd]

/-- C6, counterexample.  With a base that already has `blockOne`, `PutMany` of
`blockOne` writes it to the overlay, whereas `Put` of the same block skips the write. -/
theorem BufferedBS_PutMany_does_not_skip :
    ((baseOnly layered.read).Has blockOne.Cid).1 = (true, none) ∧
      ((layered.PutMany [blockOne] baseOnly).2 layered.write).blocks blockOne.Cid =
        some blockOne ∧
      ((layered.Put blockOne baseOnly).2 layered.write).blocks blockOne.Cid = none := by
  refine ⟨rfl, rfl, rfl⟩

/-- C6, amended.  For every list of blocks, `BufferedBS.PutMany` hands the whole
list to the overlay's `PutMany` and returns its result, with no lookup in the base
(there is no skip rule, unlike `Put`): the overlay receives the one `PutMany` call
and no other store is touched, so a base that is a store distinct from the overlay
is left as it was.  When the overlay accepts every write, the call succeeds and
every block of the list is in the overlay afterwards, whether or not the base
already has its key. -/
theorem BufferedBS_PutMany_writes_all (bs : BufferedBS) (blks : List Block) (h : Stores) :
    bs.PutMany blks h =
      (((h bs.write).PutMany blks).1, setStore h bs.write ((h bs.write).PutMany blks).2) ∧
    (∀ k, k ≠ bs.write → (bs.PutMany blks h).2 k = h k) ∧
    (bs.read ≠ bs.write → (bs.PutMany blks h).2 bs.read = h bs.read) ∧
    ((bs.PutMany blks h).2 bs.write).calls = (h bs.write).calls ++ [.PutMany blks] ∧
    ((∀ c, (h bs.write).writeErr c = none) →
      (bs.PutMany blks h).1 = none ∧
      ∀ blk ∈ blks, ∃ b ∈ blks, b.Cid = blk.Cid ∧
        ((bs.PutMany blks h).2 bs.write).blocks blk.Cid = some b) := by
  have hrun : bs.PutMany blks h =
      (((h bs.write).PutMany blks).1, setStore h bs.write ((h bs.write).PutMany blks).2) := rfl
  refine ⟨hrun, ?_, ?_, ?_, ?_⟩
  · intro k hk
    rw [hrun]
    exact setStore_other h _ _ k hk
  · intro hne
    rw [hrun]
    exact setStore_other h _ _ _ hne
  · rw [hrun]
    show (setStore h bs.write _ bs.write).calls = _
    rw [setStore_same]
    show (((h bs.write).logged (.PutMany blks)).storeAll blks).2.calls = _
    rw [Blockstore.storeAll_calls]
    rfl
  · intro hw
    have hall := Blockstore.storeAll_healthy blks ((h bs.write).logged (.PutMany blks)) hw
    rw [hrun]
    refine ⟨hall.1, ?_⟩
    intro blk hblk
    obtain ⟨b, hb, hbc, hbs⟩ := hall.2.2 blk hblk
    refine ⟨b, hb, hbc, ?_⟩
    show (setStore h bs.write _ bs.write).blocks blk.Cid = some b
    rw [setStore_same]
    exact hbs

/-- Witness for C6 (amended): `PutMany` of two blocks, one of which the base already
has, succeeds and leaves both in the overlay; the base, a distinct store, is as it was. -/
theorem BufferedBS_PutMany_writes_all_witness :
    ((layered.PutMany [blockOne, blockTwo] baseOnly).1 = none ∧
      ∀ blk ∈ [blockOne, blockTwo], ∃ b ∈ [blockOne, blockTwo], b.Cid = blk.Cid ∧
        ((layered.PutMany [blockOne, blockTwo] baseOnly).2 layered.write).blocks blk.Cid =
          some b) ∧
      (layered.PutMany [blockOne, blockTwo] baseOnly).2 layered.read = baseOnly layered.read :=
  ⟨(BufferedBS_PutMany_writes_all layered [blockOne, blockTwo] baseOnly).2.2.2.2 (fun _ => rfl),
    (BufferedBS_PutMany_writes_all layered [blockOne, blockTwo] baseOnly).2.2.1 (by decide)⟩

theorem Blockstore.View_eq {κ : Type} (s : Blockstore) (c : Cid) (callback : Callback κ)
    (k : κ) :
    s.View c callback k =
      ((match s.readErr c with
        | some e => (some e, k)
        | none =>
          match s.blocks c with
          | some b => callback b.RawData k
          | none => (some .ErrNotFound, k)), s.logged (.View c)) := by
  unfold Blockstore.View
  cases s.readErr c with
  | some e => rfl
  | none => cases s.blocks c <;> rfl

theorem Blockstore.Get_eq (s : Blockstore) (c : Cid) :
    s.Get c =
      ((match s.readErr c with
        | some e => .error e
        | none =>
          match s.blocks c with
          | some b => .ok b
          | none => .error .ErrNotFound), s.logged (.Get c)) := by
  unfold Blockstore.Get
  cases s.readErr c with
  | some e => rfl
  | none => cases s.blocks c <;> rfl

/-- When a layer lacks the view capability, `View` is the copying read. -/
theorem BufferedBS_View_fallback {κ : Type} (bs : BufferedBS) (c : Cid) (callback : Callback κ)
    (k : κ) (h : Stores) (hv : bs.writeviewer = false ∨ bs.readviewer = false) :
    (bs.View c callback k h).1 = viewByGet bs c callback k h := by
  unfold BufferedBS.View viewByGet
  rw [if_pos hv]
  rcases bs.Get c h with ⟨res, h1⟩
  cases res <;> rfl

/-- When both layers are viewable and the callback never returns `ErrNotFound`,
`View` gives the result of the copying read. -/
theorem BufferedBS_View_viewable {κ : Type} (bs : BufferedBS) (c : Cid) (callback : Callback κ)
    (k : κ) (h : Stores) (hw : bs.writeviewer = true) (hr : bs.readviewer = true)
    (hcb : ∀ data s, (callback data s).1 ≠ some .ErrNotFound) :
    (bs.View c callback k h).1 = viewByGet bs c callback k h := by
  have hno : ¬ (bs.writeviewer = false ∨ bs.readviewer = false) := by simp [hw, hr]
  have hcV := content_after_call h bs.write bs.read (.View c)
  have hcG := content_after_call h bs.write bs.read (.Get c)
  unfold BufferedBS.View viewByGet BufferedBS.Get
  rw [if_neg hno]
  simp only [Blockstore.View_eq, Blockstore.Get_eq, hcV.1, hcV.2.1, hcG.1, hcG.2.1]
  cases hwe : (h bs.write).readErr c with
  | some e =>
    by_cases he : e = .ErrNotFound
    · subst he
      cases hre : (h bs.read).readErr c with
      | some e2 => simp [hcV.1, hcV.2.1, hcG.1, hcG.2.1, hre]
      | none =>
        cases hrb : (h bs.read).blocks c with
        | none => simp [hcV.1, hcV.2.1, hcG.1, hcG.2.1, hre, hrb]
        | some b => simp [hcV.1, hcV.2.1, hcG.1, hcG.2.1, hre, hrb]
    · simp [he]
  | none =>
    cases hwb : (h bs.write).blocks c with
    | some b =>
      rcases hcall : callback b.RawData k with ⟨res, k1⟩
      cases res with
      | none => simp [hcall]
      | some e =>
        have hne : e ≠ .ErrNotFound := by
          intro hE
          apply hcb b.RawData k
          rw [hcall, hE]
        simp [hcall, hne]
    | none =>
      cases hre : (h bs.read).readErr c with
      | some e2 => simp [hcV.1, hcV.2.1, hcG.1, hcG.2.1, hre]
      | none =>
        cases hrb : (h bs.read).blocks c with
        | none => simp [hcV.1, hcV.2.1, hcG.1, hcG.2.1, hre, hrb]
        | some b => simp [hcV.1, hcV.2.1, hcG.1, hcG.2.1, hre, hrb]

/-- C8, the divergence.  Both layers are viewable and both hold the key `hash 1`;
the callback counts its calls and returns `ErrNotFound` on its first call.  `View`
takes the callback's `ErrNotFound` for a miss in the overlay, goes on to the base
(which receives a `View` call) and calls the callback a second time, returning nil;
the copying read calls the callback once and returns `ErrNotFound`. -/
theorem BufferedBS_View_calls_callback_twice :
    (viewable.View (.hash 1) notFoundOnce 0 bothHold).1 = (none, 2) ∧
      viewByGet viewable (.hash 1) notFoundOnce 0 bothHold = (some .ErrNotFound, 1) ∧
      ((viewable.View (.hash 1) notFoundOnce 0 bothHold).2 viewable.read).calls =
        [.View (.hash 1)] := by
  refine ⟨rfl, rfl, rfl⟩

theorem Blockstore.GetSize_eq (s : Blockstore) (c : Cid) :
    s.GetSize c =
      ((match s.readErr c with
        | some e => (s.errSize c, some e)
        | none =>
          match s.blocks c with
          | some b => ((b.RawData.length : Int), none)
          | none => (s.errSize c, some .ErrNotFound)), s.logged (.GetSize c)) := by
  unfold Blockstore.GetSize
  cases s.readErr c with
  | some e => rfl
  | none => cases s.blocks c <;> rfl

/-- C13, counterexample.  The base holds the zero-length block and the overlay is
empty: `Get` returns the block, but `GetSize` takes the base's size `0` for a miss
and returns the overlay's `ErrNotFound`.  And when the overlay holds a block and
the base's lookup fails with size `-1` next to the error, `Get` returns the block
but `GetSize` returns the base's error. -/
theorem BufferedBS_GetSize_disagrees_with_Get :
    ((layered.Get emptyBlock.Cid emptyBlockInBase).1 = .ok emptyBlock ∧
      (layered.GetSize emptyBlock.Cid emptyBlockInBase).1 = (-1, some .ErrNotFound)) ∧
    ((layered.Get blockOne.Cid brokenBase).1 = .ok blockOne ∧
      (brokenBase layered.read).errSize blockOne.Cid = -1 ∧
      (layered.GetSize blockOne.Cid brokenBase).1 = (-1, some (.msg "input/output error"))) := by
  refine ⟨⟨rfl, rfl⟩, ⟨rfl, rfl, rfl⟩⟩

/-- C13, amended.  `GetSize` consults the base first.  (1) Let `Get(c)` return the
block `blk`, let the base's lookup of `c` succeed, report `ErrNotFound`, or report
size `0` next to its error, and let the two layers hold the same block under `c`
when both hold one (content addressing).  If `blk` is not of zero length, or the
overlay's `Get` returns it, then `GetSize(c)` returns the byte length of `blk` with
no error.  (2) When the base's lookup of `c` fails with an error other than
`ErrNotFound` and a size other than `0` next to it, `GetSize` returns that size and
error and the overlay is not asked, whatever it holds. -/
theorem BufferedBS_GetSize_agrees_with_Get (bs : BufferedBS) (c : Cid) (h : Stores) :
    (∀ blk, (bs.Get c h).1 = .ok blk →
      ((h bs.read).readErr c = none ∨ (h bs.read).readErr c = some .ErrNotFound ∨
        (h bs.read).errSize c = 0) →
      (∀ b1 b2, (h bs.write).blocks c = some b1 → (h bs.read).blocks c = some b2 → b1 = b2) →
      (blk.RawData ≠ [] ∨ ((h bs.write).Get c).1 = .ok blk) →
      (bs.GetSize c h).1 = ((blk.RawData.length : Int), none)) ∧
    (∀ err, (h bs.read).readErr c = some err → err ≠ .ErrNotFound →
      (h bs.read).errSize c ≠ 0 →
      bs.GetSize c h =
        (((h bs.read).errSize c, some err),
          setStore h bs.read ((h bs.read).logged (.GetSize c)))) := by
  refine ⟨?_, ?_⟩
  · intro blk hget hbase hagree hcover
    have hcS := content_after_call h bs.read bs.write (.GetSize c)
    have hcG := content_after_call h bs.write bs.read (.Get c)
    unfold BufferedBS.Get at hget
    unfold BufferedBS.GetSize
    simp only [Blockstore.Get_eq, Blockstore.GetSize_eq] at hget hcover ⊢
    cases hwe : (h bs.write).readErr c <;> cases hwb : (h bs.write).blocks c <;>
      cases hre : (h bs.read).readErr c <;> cases hrb : (h bs.read).blocks c <;>
      simp_all <;> split_ifs at * <;> simp_all
  · intro err he hne hsz
    simp [BufferedBS.GetSize, Blockstore.GetSize, he, hne, hsz]

/-- Witness for C13 (amended): a non-empty block held by the base only is served
by `Get`, and `GetSize` returns its length. -/
theorem BufferedBS_GetSize_agrees_with_Get_witness :
    (layered.Get blockOne.Cid baseOnly).1 = .ok blockOne ∧
      (layered.GetSize blockOne.Cid baseOnly).1 = ((blockOne.RawData.length : Int), none) :=
  ⟨rfl, (BufferedBS_GetSize_agrees_with_Get layered blockOne.Cid baseOnly).1 blockOne rfl
    (Or.inl rfl)
    (fun b1 b2 h1 _ => by simp [baseOnly, storesOf, layered, NewTieredBstore, emptyStore] at h1)
    (Or.inl (by decide))⟩

end blockstoreutil

end Venus
